import Mathlib

/-!
Shallow embedding of the spatial engine of the Warhammer40k_AI repository
(`src/warhammer40k_ai/utility/model_base.py`, `utility/calcs.py`,
`classes/model.py`, `classes/unit.py`, `classes/map.py`) together with
theorems settling the frozen claims about it.

Conventions of the embedding:
* Python floats are modelled as real numbers; `round(x, 4)` is modelled by
  `round4` below (Python rounds ties to even, Mathlib `round` rounds ties up;
  no claim depends on exact-tie behaviour).
* shapely geometries are modelled as subsets of the plane; `geom.distance`
  is the infimum of pointwise Euclidean distances (`setDist`).
* Python `dict`s are modelled as functions into `Option`, lists as `List`.
* A Python function that can raise an exception is modelled in `Option`
  (`none` = the call raises); a function that cannot raise is modelled
  directly.
-/

open Real

noncomputable section

/-- `MM_TO_INCHES` from `model_base.py`. -/
def MM_TO_INCHES : ℝ := 25.4

/-- `round(x, 4)` of Python: round to four decimal places.  Python rounds
exact ties to even while Mathlib `round` rounds ties up; the difference is
immaterial for every claim below. -/
def round4 (x : ℝ) : ℝ := (round (x * 10000) : ℤ) / 10000

/-- `convert_mm_to_inches` from `calcs.py` / `model_base.py`. -/
def convert_mm_to_inches (value : ℝ) : ℝ := round4 (value / MM_TO_INCHES)

/-- `get_dist` from `calcs.py`: Euclidean length of a 3-D delta. -/
def get_dist (x_delta y_delta z_delta : ℝ) : ℝ :=
  Real.sqrt (x_delta ^ 2 + y_delta ^ 2 + z_delta ^ 2)

/-- Python `math.atan2 y x`, i.e. the argument of the complex number `x + y*I`. -/
def atan2 (y x : ℝ) : ℝ := Complex.arg (Complex.mk x y)

/-- `get_angle` from `calcs.py`: `atan2(x_delta, y_delta)` (note the argument
order of the source). -/
def get_angle (x_delta y_delta : ℝ) : ℝ := atan2 x_delta y_delta

/-- A point of the plane. -/
abbrev Pt := ℝ × ℝ

/-- Euclidean distance between two points of the plane (what
`shapely.geometry` distances are built on). -/
def pdist (p q : Pt) : ℝ := get_dist (p.1 - q.1) (p.2 - q.2) 0

/-- `geomA.distance(geomB)` of shapely: infimum of pointwise distances
(`0` when the geometries intersect). -/
def setDist (A B : Set Pt) : ℝ :=
  sInf { d : ℝ | ∃ p ∈ A, ∃ q ∈ B, d = pdist p q }

/-- Rotation of a plane vector by an angle. -/
def rot (θ : ℝ) (v : Pt) : Pt :=
  (v.1 * Real.cos θ - v.2 * Real.sin θ, v.1 * Real.sin θ + v.2 * Real.cos θ)

/-- `create_ellipse` from `model_base.py`: the unit disc scaled by
`(xfact, yfact) = (lengths.2, lengths.1)`, rotated by `bearing` about its
center and translated to `center` — as the set of points it covers. -/
def create_ellipse (center : Pt) (lengths : Pt) (bearing : ℝ) : Set Pt :=
  { p | ∃ u : Pt, u.1 ^ 2 + u.2 ^ 2 ≤ 1 ∧
      p = (center.1 + (rot bearing (lengths.2 * u.1, lengths.1 * u.2)).1,
           center.2 + (rot bearing (lengths.2 * u.1, lengths.1 * u.2)).2) }

/-- `create_rectangle` from `model_base.py`: the rectangle with half-width
`lengths.2` (x) and half-height `lengths.1` (y), rotated by `bearing` about
its center and placed at `center` — as the set of points it covers. -/
def create_rectangle (center : Pt) (lengths : Pt) (bearing : ℝ) : Set Pt :=
  { p | ∃ u : Pt, |u.1| ≤ 1 ∧ |u.2| ≤ 1 ∧
      p = (center.1 + (rot bearing (lengths.2 * u.1, lengths.1 * u.2)).1,
           center.2 + (rot bearing (lengths.2 * u.1, lengths.1 * u.2)).2) }

/-- `BaseType` enumeration from `model_base.py`. -/
inductive BaseType where
  | CIRCULAR
  | ELLIPTICAL
  | HULL
deriving DecidableEq, Repr

/-- The `Base` class of `model_base.py`: position, elevation, facing, shape
kind, the two characteristic radii (a circular base stores its radius
twice, as `_normalize_radius` does) and the model height. -/
structure Base where
  x : ℝ
  y : ℝ
  z : ℝ
  facing : ℝ
  base_type : BaseType
  radius : ℝ × ℝ
  model_height : ℝ

/-- `Base.__init__` with a pair radius: position and facing zero, model
height defaulted by `set_model_height` to `min(radius) * 2`. -/
def Base.make (base_type : BaseType) (radius : ℝ × ℝ) : Base :=
  { x := 0, y := 0, z := 0, facing := 0, base_type := base_type,
    radius := radius, model_height := min radius.1 radius.2 * 2 }

/-- `Base.__init__` with a scalar radius: `_normalize_radius` duplicates it. -/
def Base.makeCircular (r : ℝ) : Base := Base.make .CIRCULAR (r, r)

/-- `Base.set_facing`. -/
def Base.set_facing (b : Base) (facing : ℝ) : Base := { b with facing := facing }

/-- The angle `(math.pi - self.facing) + angle` shared by the elliptical and
hull radius computations of `model_base.py`. -/
def Base.fullAngle (b : Base) (angle : ℝ) : ℝ := (Real.pi - b.facing) + angle

/-- `Base._get_elliptical_radius`. -/
def Base.ellipticalRadius (b : Base) (angle : ℝ) : ℝ :=
  round4 (b.radius.1 * b.radius.2 /
    Real.sqrt (b.radius.1 ^ 2 * Real.sin (b.fullAngle angle) ^ 2 +
               b.radius.2 ^ 2 * Real.cos (b.fullAngle angle) ^ 2))

/-- The corner angle `atan(major/minor)` of `_get_hull_radius`, where
`major = radius.2` and `minor = radius.1` (the source swaps the pair). -/
def Base.hullCornerAngle (b : Base) : ℝ := Real.arctan (b.radius.2 / b.radius.1)

/-- The sector test of `_get_hull_radius`: the branch that measures the
radius from the short half-width `minor`. -/
def hullInSector (full_angle corner_angle : ℝ) : Prop :=
  (-corner_angle ≤ full_angle ∧ full_angle < corner_angle) ∨
  (Real.pi - corner_angle ≤ full_angle ∧ full_angle < Real.pi + corner_angle)

open Classical in
/-- `Base._get_hull_radius` before the final `round(..., 4)`: the value the
source asserts to be positive (`assert radius > 0`). -/
def Base.hullRadiusRaw (b : Base) (angle : ℝ) : ℝ :=
  let major := b.radius.2
  let minor := b.radius.1
  let full := b.fullAngle angle
  if hullInSector full (b.hullCornerAngle) then
    get_dist minor (minor * Real.tan full) 0
  else
    get_dist (major / Real.tan full) major 0

/-- `Base._get_hull_radius`. -/
def Base.hullRadius (b : Base) (angle : ℝ) : ℝ := round4 (b.hullRadiusRaw angle)

/-- `Base.getRadius`. -/
def Base.getRadius (b : Base) (angle : ℝ) : ℝ :=
  match b.base_type with
  | .CIRCULAR => round4 b.radius.1
  | .ELLIPTICAL => b.ellipticalRadius angle
  | .HULL => b.hullRadius angle

/-- `Base.longestDistance`. -/
def Base.longestDistance (b : Base) : ℝ :=
  match b.base_type with
  | .CIRCULAR => max b.radius.1 b.radius.2
  | .ELLIPTICAL => max b.radius.1 b.radius.2
  | .HULL => get_dist b.radius.1 b.radius.2 0

/-- The shape of the base materialised at an arbitrary center point (used
both for `Base.getShape` and for the shapely `translate` calls of the
movement code, which shift a shape so that its centroid — the center, for
these shapes — lands on a given point). -/
def Base.getShapeAt (b : Base) (p : Pt) : Set Pt :=
  match b.base_type with
  | .CIRCULAR => create_ellipse p b.radius b.facing
  | .ELLIPTICAL => create_ellipse p b.radius b.facing
  | .HULL => create_rectangle p b.radius b.facing

/-- `Base.getShape`. -/
def Base.getShape (b : Base) : Set Pt := b.getShapeAt (b.x, b.y)

/-- `Base.shortestDistance`. -/
def Base.shortestDistance (b other : Base) : ℝ :=
  round4 (setDist b.getShape other.getShape)

/-- `Base.collidesWithBase` as a predicate: the two early `return False`
branches become negated conjuncts, the final branch is
`shortestDistance == 0.0`. -/
def Base.collidesWithBase (b other : Base) : Prop :=
  ¬ (other.z - b.z > b.model_height) ∧
  ¬ (b.longestDistance + other.longestDistance <
      get_dist (other.x - b.x) (other.y - b.y) 0) ∧
  b.shortestDistance other = 0

end

section GeometryLemmas

lemma get_dist_nonneg (a b c : ℝ) : 0 ≤ get_dist a b c := Real.sqrt_nonneg _

lemma pdist_nonneg (p q : Pt) : 0 ≤ pdist p q := get_dist_nonneg _ _ _

lemma pdist_comm (p q : Pt) : pdist p q = pdist q p := by
  unfold pdist get_dist
  ring_nf

lemma pdist_self (p : Pt) : pdist p p = 0 := by
  unfold pdist get_dist
  simp

lemma pdist_eq_complexAbs (p q : Pt) :
    pdist p q = Complex.abs (Complex.mk (p.1 - q.1) (p.2 - q.2)) := by
  rw [Complex.abs_apply, Complex.normSq_mk]
  unfold pdist get_dist
  ring_nf

lemma pdist_triangle (p q r : Pt) : pdist p r ≤ pdist p q + pdist q r := by
  rw [pdist_eq_complexAbs p r, pdist_eq_complexAbs p q, pdist_eq_complexAbs q r]
  have h := Complex.abs.sub_le (Complex.mk p.1 p.2) (Complex.mk q.1 q.2) (Complex.mk r.1 r.2)
  have e1 : Complex.mk p.1 p.2 - Complex.mk r.1 r.2 = Complex.mk (p.1 - r.1) (p.2 - r.2) := by
    apply Complex.ext <;> simp
  have e2 : Complex.mk p.1 p.2 - Complex.mk q.1 q.2 = Complex.mk (p.1 - q.1) (p.2 - q.2) := by
    apply Complex.ext <;> simp
  have e3 : Complex.mk q.1 q.2 - Complex.mk r.1 r.2 = Complex.mk (q.1 - r.1) (q.2 - r.2) := by
    apply Complex.ext <;> simp
  rw [e1, e2, e3] at h
  exact h

lemma setDist_comm (A B : Set Pt) : setDist A B = setDist B A := by
  unfold setDist
  congr 1
  ext d
  constructor
  · rintro ⟨p, hp, q, hq, rfl⟩
    exact ⟨q, hq, p, hp, pdist_comm p q⟩
  · rintro ⟨p, hp, q, hq, rfl⟩
    exact ⟨q, hq, p, hp, pdist_comm p q⟩

lemma setDist_le {A B : Set Pt} {p q : Pt} (hp : p ∈ A) (hq : q ∈ B) :
    setDist A B ≤ pdist p q := by
  apply csInf_le
  · exact ⟨0, fun d ⟨a, _, b, _, hd⟩ => hd ▸ pdist_nonneg a b⟩
  · exact ⟨p, hp, q, hq, rfl⟩

lemma setDist_nonneg (A B : Set Pt) : 0 ≤ setDist A B := by
  unfold setDist
  rcases Set.eq_empty_or_nonempty { d : ℝ | ∃ p ∈ A, ∃ q ∈ B, d = pdist p q } with h | h
  · rw [h, Real.sInf_empty]
  · exact le_csInf h (fun d ⟨a, _, b, _, hd⟩ => hd ▸ pdist_nonneg a b)

lemma setDist_eq_zero_of_mem_inter {A B : Set Pt} {p : Pt} (hA : p ∈ A) (hB : p ∈ B) :
    setDist A B = 0 :=
  le_antisymm (by simpa [pdist_self] using setDist_le hA hB) (setDist_nonneg A B)

/-- Rotation preserves the sum of squares of the coordinates. -/
lemma rot_sq (θ : ℝ) (v : Pt) :
    (rot θ v).1 ^ 2 + (rot θ v).2 ^ 2 = v.1 ^ 2 + v.2 ^ 2 := by
  unfold rot
  have h := Real.sin_sq_add_cos_sq θ
  ring_nf
  nlinarith [h]

/-- Every point of a materialised ellipse lies within `max radius.1 radius.2`
of its center (for nonnegative radii). -/
lemma create_ellipse_subset_ball {c r : Pt} {θ : ℝ} (h1 : 0 ≤ r.1) (h2 : 0 ≤ r.2)
    {p : Pt} (hp : p ∈ create_ellipse c r θ) : pdist p c ≤ max r.1 r.2 := by
  obtain ⟨u, hu, rfl⟩ := hp
  have hmax : 0 ≤ max r.1 r.2 := le_max_of_le_left h1
  unfold pdist get_dist
  have key : (c.1 + (rot θ (r.2 * u.1, r.1 * u.2)).1 - c.1) ^ 2 +
      (c.2 + (rot θ (r.2 * u.1, r.1 * u.2)).2 - c.2) ^ 2 + (0:ℝ) ^ 2 =
      (r.2 * u.1) ^ 2 + (r.1 * u.2) ^ 2 := by
    have := rot_sq θ (r.2 * u.1, r.1 * u.2)
    ring_nf
    ring_nf at this
    linarith
  rw [key]
  have hle : (r.2 * u.1) ^ 2 + (r.1 * u.2) ^ 2 ≤ (max r.1 r.2) ^ 2 := by
    have a1 : r.1 ≤ max r.1 r.2 := le_max_left _ _
    have a2 : r.2 ≤ max r.1 r.2 := le_max_right _ _
    have hM2 : (0:ℝ) ≤ (max r.1 r.2) ^ 2 := sq_nonneg _
    have c1 : r.2 ^ 2 ≤ (max r.1 r.2) ^ 2 := by nlinarith
    have c2 : r.1 ^ 2 ≤ (max r.1 r.2) ^ 2 := by nlinarith
    have d1 : r.2 ^ 2 * u.1 ^ 2 ≤ (max r.1 r.2) ^ 2 * u.1 ^ 2 :=
      mul_le_mul_of_nonneg_right c1 (sq_nonneg _)
    have d2 : r.1 ^ 2 * u.2 ^ 2 ≤ (max r.1 r.2) ^ 2 * u.2 ^ 2 :=
      mul_le_mul_of_nonneg_right c2 (sq_nonneg _)
    have d3 : (max r.1 r.2) ^ 2 * (u.1 ^ 2 + u.2 ^ 2) ≤ (max r.1 r.2) ^ 2 * 1 :=
      mul_le_mul_of_nonneg_left hu hM2
    nlinarith [d1, d2, d3]
  calc Real.sqrt ((r.2 * u.1) ^ 2 + (r.1 * u.2) ^ 2)
      ≤ Real.sqrt ((max r.1 r.2) ^ 2) := Real.sqrt_le_sqrt hle
    _ = max r.1 r.2 := Real.sqrt_sq hmax

/-- Every point of a materialised rectangle lies within
`hypot radius.1 radius.2` of its center. -/
lemma create_rectangle_subset_ball {c r : Pt} {θ : ℝ}
    {p : Pt} (hp : p ∈ create_rectangle c r θ) : pdist p c ≤ get_dist r.1 r.2 0 := by
  obtain ⟨u, hu1, hu2, rfl⟩ := hp
  unfold pdist get_dist
  have key : (c.1 + (rot θ (r.2 * u.1, r.1 * u.2)).1 - c.1) ^ 2 +
      (c.2 + (rot θ (r.2 * u.1, r.1 * u.2)).2 - c.2) ^ 2 + (0:ℝ) ^ 2 =
      (r.2 * u.1) ^ 2 + (r.1 * u.2) ^ 2 := by
    have := rot_sq θ (r.2 * u.1, r.1 * u.2)
    ring_nf
    ring_nf at this
    linarith
  rw [key]
  apply Real.sqrt_le_sqrt
  have b1 : u.1 ^ 2 ≤ 1 := by
    have := abs_le.mp hu1
    nlinarith [this.1, this.2]
  have b2 : u.2 ^ 2 ≤ 1 := by
    have := abs_le.mp hu2
    nlinarith [this.1, this.2]
  nlinarith [sq_nonneg r.1, sq_nonneg r.2]

/-- Any point of any materialised base shape lies within `longestDistance`
of the base's position, for nonnegative radii. -/
lemma getShapeAt_subset_ball {b : Base} (h1 : 0 ≤ b.radius.1) (h2 : 0 ≤ b.radius.2)
    {c p : Pt} (hp : p ∈ b.getShapeAt c) : pdist p c ≤ b.longestDistance := by
  rcases hbt : b.base_type
  · have hp' : p ∈ create_ellipse c b.radius b.facing := by
      simpa [Base.getShapeAt, hbt] using hp
    simpa [Base.longestDistance, hbt] using create_ellipse_subset_ball h1 h2 hp'
  · have hp' : p ∈ create_ellipse c b.radius b.facing := by
      simpa [Base.getShapeAt, hbt] using hp
    simpa [Base.longestDistance, hbt] using create_ellipse_subset_ball h1 h2 hp'
  · have hp' : p ∈ create_rectangle c b.radius b.facing := by
      simpa [Base.getShapeAt, hbt] using hp
    simpa [Base.longestDistance, hbt] using create_rectangle_subset_ball hp'

/-- The component deltas are bounded by the Euclidean distance. -/
lemma abs_fst_le_pdist (p q : Pt) : |p.1 - q.1| ≤ pdist p q := by
  unfold pdist get_dist
  rw [← Real.sqrt_sq_eq_abs]
  apply Real.sqrt_le_sqrt
  nlinarith [sq_nonneg (p.2 - q.2)]

lemma abs_snd_le_pdist (p q : Pt) : |p.2 - q.2| ≤ pdist p q := by
  unfold pdist get_dist
  rw [← Real.sqrt_sq_eq_abs]
  apply Real.sqrt_le_sqrt
  nlinarith [sq_nonneg (p.1 - q.1)]

end GeometryLemmas

noncomputable section Engine

open Classical

/-- `ObstacleType` enumeration from `map.py`. -/
inductive ObstacleType where
  | CRATER_AND_RUBBLE
  | DEBRIS_AND_STATUARY
  | HILLS_AND_SEALED_BUILDINGS
  | WOODS
  | RUINS
deriving DecidableEq, Repr

/-- The `Obstacle` class of `map.py`; its vertex list is modelled by the
planar region the polygon covers. -/
structure Obstacle where
  polygon : Set Pt
  terrain_type : ObstacleType
  height : ℝ

/-- The `Model` class of `model.py`, restricted to the state the spatial
engine reads: the owned `Base` and the movement characteristic (the
`movement` property with no stat modifiers active). -/
structure Model where
  model_base : Base
  movement : ℤ

/-- `Model.set_location`: writes position and facing straight onto the base,
with no normalization. -/
def Model.set_location (mo : Model) (x y z facing : ℝ) : Model :=
  { mo with model_base := { mo.model_base with x := x, y := y, z := z, facing := facing } }

/-- The `Unit` class of `unit.py` (named `GameUnit` here: `Unit` is taken by the Lean prelude), restricted to the state the spatial
engine reads.  The keyword-derived flags (`is_monster`, `is_fly`, …) are
stored as booleans; `calcs.py` reads the attribute `is_fly`, which the
flag field models. -/
structure GameUnit where
  models : List Model
  position : Option (ℝ × ℝ × ℝ)
  coherency_distance : ℝ
  required_neighbors : ℕ
  faction : String
  is_fly : Bool
  is_infantry : Bool
  is_beast : Bool
  is_belisarius_cawl : Bool
  is_imperium_primarch : Bool
  is_aircraft : Bool
  is_monster : Bool
  is_vehicle : Bool

/-- A placeholder base; `unit.py` indexes `self.models[0]`, which raises on
an empty unit.  The placeholder is only ever produced for empty units and
no theorem depends on its value. -/
def dummyBase : Base := Base.makeCircular 0

/-- `self.models[0].model_base` (first model of the unit). -/
def GameUnit.firstBase (u : GameUnit) : Base :=
  match u.models with
  | [] => dummyBase
  | mo :: _ => mo.model_base

/-- Modelled from the spec: `Base.has_circular_base` is referenced by
`model.py`/`unit.py` but never defined in the source snapshot; per the data
model (§3, shape kind one of circle/ellipse/hull) it is the test that the
footprint's shape kind is the circle. -/
def GameUnit.has_circular_base (u : GameUnit) : Bool :=
  decide (u.firstBase.base_type = BaseType.CIRCULAR)

/-- Modelled from the spec: `Base.base_size` is referenced by
`model.py`/`unit.py` but never defined in the source snapshot; per the data
model (§3, one or two characteristic radii) it is the characteristic radius
of the footprint. -/
def GameUnit.base_size (u : GameUnit) : ℝ := u.firstBase.radius.1

/-- `Unit.movement`: the movement characteristic of the first model. -/
def GameUnit.movement (u : GameUnit) : ℤ :=
  match u.models with
  | [] => 0
  | mo :: _ => mo.movement

/-- `Unit.model_height`: `max` of the model heights (Python `max(...)`
raises on an empty unit; the default `0` is never produced by the
theorems). -/
def GameUnit.model_height (u : GameUnit) : ℝ :=
  (u.models.map (fun mo => mo.model_base.model_height)).foldr max 0

/-- `update_coherency` from `unit.py` as a function of the model count:
the `required_neighbors` value it stores. -/
def requiredForCount (n : ℕ) : ℕ :=
  if n = 1 then 0 else if n > 5 then 2 else 1

/-- The `Map` class of `map.py`, restricted to what the spatial engine
reads. -/
structure Map where
  width : ℝ
  height : ℝ
  obstacles : List Obstacle
  units : List GameUnit

/-- Modelled from the spec: the module `utility/constants.py` is imported by
`calcs.py` but absent from the source snapshot; `FREELY_CLIMBABLE_RANGE` is
its fixed "freely climbable" height threshold (§4.2).  No claim depends on
its numeric value. -/
def FREELY_CLIMBABLE_RANGE : ℝ := 2

/-- `can_traverse_freely` from `calcs.py`. -/
def can_traverse_freely (u : GameUnit) (o : Obstacle) : Bool :=
  if u.is_fly then true
  else if o.height ≤ FREELY_CLIMBABLE_RANGE then true
  else if decide (o.terrain_type = ObstacleType.RUINS) &&
      (u.is_infantry || u.is_beast || u.is_belisarius_cawl || u.is_imperium_primarch) then true
  else false

/-- `get_pivot_cost` from `calcs.py`. -/
def get_pivot_cost (u : GameUnit) : ℝ :=
  if u.is_aircraft then 0
  else if (u.is_monster || u.is_vehicle) &&
      (!u.has_circular_base || decide (u.base_size > convert_mm_to_inches (32 / 2))) then 2
  else if !u.has_circular_base then 1
  else 0

/-- `heuristic` from `calcs.py`. -/
def heuristic (a b : Pt) : ℝ := get_dist (a.1 - b.1) (a.2 - b.2) 0

/-- List filter / find / count by a (classically decided) predicate, used to
embed the Python `for` loops that test real-valued conditions. -/
def pfilter {α : Type} (P : α → Prop) : List α → List α
  | [] => []
  | a :: l => if P a then a :: pfilter P l else pfilter P l

/-- First element satisfying the predicate (embeds a search loop). -/
def pfind {α : Type} (P : α → Prop) : List α → Option α
  | [] => none
  | a :: l => if P a then some a else pfind P l

/-- Number of elements satisfying the predicate (embeds a counting loop). -/
def pcount {α : Type} (P : α → Prop) : List α → ℕ
  | [] => 0
  | a :: l => (if P a then 1 else 0) + pcount P l

/-- A `(x, y, z, facing)` tuple as produced by `calculate_model_positions`. -/
structure Pos4 where
  x : ℝ
  y : ℝ
  z : ℝ
  facing : ℝ

/-- `Unit._create_potential_base`: a copy of the first model's base with the
given pose written onto it. -/
def GameUnit.create_potential_base (u : GameUnit) (x y z facing : ℝ) : Base :=
  { u.firstBase with x := x, y := y, z := z, facing := facing }

/-- The per-position loop body of `Unit._collides_with_unit_models`
(the elevation test `return False`s out of the whole scan, as the source
does). -/
def collidesScan (u : GameUnit) (x y z facing : ℝ) : List Pos4 → Prop
  | [] => False
  | pos :: rest =>
      if z - pos.z > u.model_height then False
      else if get_dist (x - pos.x) (y - pos.y) 0 ≤
          (u.create_potential_base x y z facing).getRadius (get_angle (y - pos.y) (x - pos.x)) +
          (u.create_potential_base pos.x pos.y pos.z pos.facing).getRadius
            (get_angle (y - pos.y) (x - pos.x)) then True
      else collidesScan u x y z facing rest

/-- `Unit._collides_with_unit_models`. -/
def GameUnit.collides_with_unit_models (u : GameUnit) (x y z facing : ℝ)
    (positions : List Pos4) : Prop :=
  collidesScan u x y z facing positions

/-- The edge-to-edge closeness test of `Unit._is_coherent_within_unit`:
shape distance at most the coherency distance. -/
def nbrClose (u : GameUnit) (x y z facing : ℝ) (pos : Pos4) : Prop :=
  setDist ((u.create_potential_base x y z facing).getShape)
      ((u.create_potential_base pos.x pos.y pos.z pos.facing).getShape) ≤
    u.coherency_distance

/-- `Unit._is_coherent_within_unit`: the counting loop with early exit is
equivalent to the count over the whole list reaching the needed number
(and `needed = 0` returns `True`, which `0 ≤ count` is). -/
def GameUnit.is_coherent_within_unit (u : GameUnit) (x y z facing : ℝ)
    (positions : List Pos4) : Prop :=
  (if positions.length = 0 then 0
   else if positions.length = 1 then 1
   else u.required_neighbors) ≤ pcount (nbrClose u x y z facing) positions

/-- Modelled from the spec: `Map.is_within_boundary` is called by
`unit.py` but not defined in the source snapshot.  Spec §4.5 (1): the
footprint at the candidate position is fully inside the rectangular map
boundary. -/
def Map.is_within_boundary (m : Map) (model : Model) (p : Pt) : Prop :=
  ∀ q ∈ model.model_base.getShapeAt p, 0 ≤ q.1 ∧ q.1 ≤ m.width ∧ 0 ≤ q.2 ∧ q.2 ≤ m.height

/-- Modelled from the spec: `Map.check_collision_with_obstacles` is called
by `unit.py` but not defined in the source snapshot.  Spec §4.5 (2): the
footprint at the candidate position intersects an obstacle the unit cannot
traverse (the owning unit is passed explicitly in place of the
`model.parent_unit` back-reference). -/
def Map.check_collision_with_obstacles (m : Map) (u : GameUnit) (model : Model) (p : Pt) : Prop :=
  ∃ obs ∈ m.obstacles, can_traverse_freely u obs = false ∧
    (model.model_base.getShapeAt p ∩ obs.polygon).Nonempty

/-- Modelled from the spec: `Map.check_collision_with_other_units` is called
by `unit.py` but not defined in the source snapshot.  Spec §4.3 / §4.5 (3):
the footprint at the candidate position intersects another unit's model
where the other unit is of a different faction or both units are of the
large (monster/vehicle) class. -/
def Map.check_collision_with_other_units (m : Map) (u : GameUnit) (model : Model) (p : Pt) : Prop :=
  ∃ other ∈ m.units,
    (∃ om ∈ other.models, (model.model_base.getShapeAt p ∩ om.model_base.getShape).Nonempty) ∧
    (other.faction ≠ u.faction ∨
      ((u.is_monster || u.is_vehicle) = true ∧ (other.is_monster || other.is_vehicle) = true))

/-- The first model of the unit, used by `_is_valid_position` as the
reference model. -/
def GameUnit.firstModel (u : GameUnit) : Model :=
  match u.models with
  | [] => { model_base := dummyBase, movement := 0 }
  | mo :: _ => mo

/-- `Unit._is_valid_position` (the early `return False` chain as a
conjunction). -/
def GameUnit.is_valid_position (u : GameUnit) (x y z facing : ℝ) (m : Map)
    (placed : List Pos4) : Prop :=
  m.is_within_boundary u.firstModel (x, y) ∧
  ¬ m.check_collision_with_obstacles u u.firstModel (x, y) ∧
  ¬ m.check_collision_with_other_units u u.firstModel (x, y) ∧
  ¬ u.collides_with_unit_models x y z facing placed ∧
  u.is_coherent_within_unit x y z facing placed

/-- `numpy.arange start stop step` for a positive step: the values
`start + step * k` for `k < ⌈(stop - start) / step⌉`. -/
def arange (start stop step : ℝ) : List ℝ :=
  (List.range ⌈(stop - start) / step⌉₊).map (fun (k : ℕ) => start + step * (k : ℝ))

/-- `Unit._find_strategic_position`.  (`positions[-1]` raises on an empty
list in Python; the function is only called with a nonempty list.) -/
def GameUnit.find_strategic_position (u : GameUnit) (model : Model) (placed : List Pos4)
    (m : Map) : List Pos4 :=
  match placed.getLast? with
  | none => []
  | some last =>
    let dirs : List (ℝ × ℝ) :=
      [(0, 1), (1, 1), (1, 0), (1, -1), (0, -1), (-1, -1), (-1, 0), (-1, 1)]
    dirs.flatMap (fun d =>
      let r := model.model_base.getRadius (get_angle d.2 d.1)
      pfilter (fun c => u.is_valid_position c.x c.y c.z c.facing m placed)
        ((arange (r + 0.1) (r + u.coherency_distance) 0.1).map
          (fun dist => Pos4.mk (last.x + dist * d.1) (last.y + dist * d.2) last.z last.facing)))

/-- One model's placement attempt loop of `calculate_model_positions`
(`max_attempts = 100` as fuel; the candidate scan takes the first valid
position that neither collides with nor breaks coherency with the already
placed ones; the attempts are deterministic, so each retry repeats the same
computation exactly as the source does). -/
def tryPlace (u : GameUnit) (m : Map) (sx sy : ℝ) (model : Model)
    (positions : List Pos4) : ℕ → Option Pos4
  | 0 => none
  | n + 1 =>
      if positions = [] then some (Pos4.mk sx sy 0 0)
      else
        match pfind (fun c =>
            ¬ u.collides_with_unit_models c.x c.y c.z c.facing positions ∧
            u.is_coherent_within_unit c.x c.y c.z c.facing positions)
            (u.find_strategic_position model positions m) with
        | some c => some c
        | none => tryPlace u m sx sy model positions n

/-- The per-model loop of `calculate_model_positions`: place each model in
turn, returning `[]` as soon as one cannot be placed. -/
def placeModels (u : GameUnit) (m : Map) (sx sy : ℝ) :
    List Model → List Pos4 → List Pos4
  | [], positions => positions
  | model :: rest, positions =>
      match tryPlace u m sx sy model positions 100 with
      | none => []
      | some c => placeModels u m sx sy rest (positions ++ [c])

/-- `Unit.calculate_model_positions`. -/
def GameUnit.calculate_model_positions (u : GameUnit) (start_x start_y : ℝ) (m : Map)
    (zoom_level : ℝ) (seeded : List Pos4) : List Pos4 :=
  placeModels u m (start_x / zoom_level) (start_y / zoom_level) u.models seeded

/-- `distance_to_nearest_obstacle` from `calcs.py`.  `none` models the
`ValueError` Python's `min` raises on an empty obstacle list. -/
def distance_to_nearest_obstacle (p : Pt) : List Obstacle → Option ℝ
  | [] => none
  | o :: os =>
      some ((os.map (fun ob => setDist {p} ob.polygon)).foldl min (setDist {p} o.polygon))

/-- `adaptive_step_size` from `calcs.py` (with its default parameters
supplied at the call site). -/
def adaptive_step_size (p : Pt) (obstacles : List Obstacle)
    (min_step max_step safety_factor : ℝ) : Option ℝ :=
  (distance_to_nearest_obstacle p obstacles).map
    (fun d => max min_step (min max_step (d * safety_factor)))

/-- `get_neighbors` from `calcs.py`: candidate points from the current one,
validated by placing the moving footprint there and testing obstacle
intersection. -/
def get_neighbors (b : Base) (current : Pt) (obstacles : List Obstacle)
    (goal : Pt) : Option (List Pt) :=
  match adaptive_step_size current obstacles 0.1 6.0 0.5 with
  | none => none
  | some step =>
    let gdir : Pt := (goal.1 - current.1, goal.2 - current.2)
    let gdist := get_dist gdir.1 gdir.2 0
    let candidates : List Pt :=
      if gdist ≤ step then [goal]
      else
        [(current.1 + gdir.1 / gdist * step, current.2 + gdir.2 / gdist * step),
         (current.1 + step, current.2), (current.1 - step, current.2),
         (current.1, current.2 + step), (current.1, current.2 - step),
         (current.1 + step * 0.707, current.2 + step * 0.707),
         (current.1 - step * 0.707, current.2 - step * 0.707),
         (current.1 + step * 0.707, current.2 - step * 0.707),
         (current.1 - step * 0.707, current.2 + step * 0.707)]
    some (pfilter (fun n => ∀ obs ∈ obstacles, ¬ ((b.getShapeAt n) ∩ obs.polygon).Nonempty)
      candidates)

/-- The A* bookkeeping of `calcs.a_star`: the binary heap as a multiset of
`(f_score, point)` entries, the Python dicts as functions into `Option`. -/
structure AStarState where
  open_set : List (ℝ × Pt)
  came_from : Pt → Option Pt
  g_score : Pt → Option ℝ
  f_score : Pt → Option ℝ

/-- Pointwise dictionary update. -/
def updf {α : Type} (f : Pt → Option α) (k : Pt) (v : α) : Pt → Option α :=
  fun p => if p = k then some v else f p

/-- The strict order `heapq` compares `(f_score, (x, y))` tuples by. -/
def lexLt (a b : ℝ × Pt) : Prop :=
  a.1 < b.1 ∨ (a.1 = b.1 ∧ (a.2.1 < b.2.1 ∨ (a.2.1 = b.2.1 ∧ a.2.2 < b.2.2)))

/-- Remove the first occurrence of an element. -/
def eraseFirst : List (ℝ × Pt) → (ℝ × Pt) → List (ℝ × Pt)
  | [], _ => []
  | x :: xs, mi => if x = mi then xs else x :: eraseFirst xs mi

/-- `heapq.heappop`: remove and return a smallest entry. -/
def popMin : List (ℝ × Pt) → Option ((ℝ × Pt) × List (ℝ × Pt))
  | [] => none
  | x :: xs =>
      let mi := xs.foldl (fun best y => if lexLt y best then y else best) x
      some (mi, eraseFirst (x :: xs) mi)

/-- The neighbor relaxation step of `a_star` (`if neighbor not in g_score or
tentative < g_score[neighbor]`). -/
def relaxNeighbor (goal current : Pt) (gcur : ℝ) (st : AStarState) (n : Pt) : AStarState :=
  let tentative := gcur + heuristic current n
  if (match st.g_score n with
      | none => True
      | some v => tentative < v) then
    { open_set := st.open_set ++ [(tentative + heuristic n goal, n)],
      came_from := updf st.came_from n current,
      g_score := updf st.g_score n tentative,
      f_score := updf st.f_score n (tentative + heuristic n goal) }
  else st

/-- The path reconstruction loop of `a_star` (`while current in came_from`).
Python's loop is unbounded; every reachable `came_from` chain is far
shorter than the fuel used below, so the cut-off is never taken on a real
execution. -/
def reconstructPath (came : Pt → Option Pt) : ℕ → Pt → List Pt
  | 0, _ => []
  | fuel + 1, cur =>
      match came cur with
      | some prev => cur :: reconstructPath came fuel prev
      | none => []

/-- The main loop of `a_star` (`max_iterations` as fuel).  The outer `none`
models an uncaught Python exception (the empty-obstacle `min`); the inner
`none` is the source's `return None` (no path). -/
def aStarAux (b : Base) (obstacles : List Obstacle) (goal start : Pt) :
    ℕ → AStarState → Option (Option (List Pt))
  | 0, _ => some none
  | fuel + 1, st =>
      match popMin st.open_set with
      | none => some none
      | some (cur, rest) =>
          let current := cur.2
          if goal ∈ b.getShapeAt current ∨ heuristic current goal < 0.1 then
            some (some ((reconstructPath st.came_from 500000 current ++ [start]).reverse ++ [goal]))
          else
            match get_neighbors b current obstacles goal with
            | none => none
            | some nbrs =>
                let gcur := (st.g_score current).getD 0
                aStarAux b obstacles goal start fuel
                  (nbrs.foldl (relaxNeighbor goal current gcur) { st with open_set := rest })

/-- `a_star` from `calcs.py`.  (`model.model_base.get_base_shape()` is not
defined in the source snapshot; per spec §4.1 it materialises the footprint
at its current position, i.e. `Base.getShape`, and the `translate`-to-point
calls are `Base.getShapeAt`.) -/
def a_star (model : Model) (obstacles : List Obstacle) (target : Pos4) :
    Option (Option (List Pt)) :=
  let start : Pt := (model.model_base.x, model.model_base.y)
  let goal : Pt := (target.x, target.y)
  aStarAux model.model_base obstacles goal start 50000
    { open_set := [(0, start)],
      came_from := fun _ => none,
      g_score := updf (fun _ => none) start 0,
      f_score := updf (fun _ => none) start (heuristic start goal) }

/-- The per-model 2-D path length computed in `Unit.move`. -/
def path_distance : List Pt → ℝ
  | [] => 0
  | [_] => 0
  | a :: b :: rest => get_dist (b.1 - a.1) (b.2 - a.2) 0 + path_distance (b :: rest)

/-- The per-model loop of `Unit.move`.  Returns the updated model list and
whether any iteration reached the relocation step (which is where the
loop-local variable `distance` is first assigned).  A model whose path is
missing, empty, or longer than its own movement characteristic is skipped
(`continue`) and left unchanged; otherwise it is relocated to its assigned
destination (`model.set_location(*destination)`).  The `last_move_path`
bookkeeping is display-only and does not affect any footprint, so it is not
modelled. -/
def processModels (m : Map) : List (Model × Pos4) → Option (List Model × Bool)
  | [] => some ([], false)
  | (model, dest) :: rest =>
      match a_star model m.obstacles dest with
      | none => none
      | some none => (processModels m rest).map (fun r => (model :: r.1, r.2))
      | some (some path) =>
          if path = [] then (processModels m rest).map (fun r => (model :: r.1, r.2))
          else if path_distance path > (model.movement : ℝ) then
            (processModels m rest).map (fun r => (model :: r.1, r.2))
          else
            (processModels m rest).map (fun r =>
              (model.set_location dest.x dest.y dest.z dest.facing :: r.1, true))

/-- The centroid of the model positions (`reset_position` / `get_position`). -/
def centroid3 (models : List Model) : ℝ × ℝ × ℝ :=
  ((models.map (fun mo => mo.model_base.x)).sum / models.length,
   (models.map (fun mo => mo.model_base.y)).sum / models.length,
   (models.map (fun mo => mo.model_base.z)).sum / models.length)

/-- `Unit.get_position`. -/
def GameUnit.get_position (u : GameUnit) : Option (ℝ × ℝ × ℝ) :=
  match u.position with
  | some p => some p
  | none => if u.models = [] then none else some (centroid3 u.models)

/-- `Unit.reset_position`. -/
def GameUnit.reset_position (u : GameUnit) : GameUnit :=
  if u.models = [] then { u with position := none }
  else { u with position := some (centroid3 u.models) }

/-- `Unit.move` with `advance = False` (the default; the advance branch
only adds a random D6 to `movement_range`, which the active code never
reads).  `none` models an uncaught exception: either one raised inside the
loop, or the `NameError` raised by the final `print`, which reads the
loop-local variable `distance` — unbound whenever no iteration reached the
relocation step (in particular whenever the placement solver returned `[]`
for a nonempty unit). -/
def GameUnit.move (u : GameUnit) (destination : ℝ × ℝ × ℝ) (game_map : Map) :
    Option (Bool × GameUnit) :=
  if u.models = [] then some (false, u)
  else
    match u.get_position with
    | none => some (false, u)
    | some _ =>
        match processModels game_map
            (u.models.zip (u.calculate_model_positions destination.1 destination.2.1 game_map 1 [])) with
        | none => none
        | some r =>
            if r.2 then
              some (true, GameUnit.reset_position { u with models := (r.1 ++ u.models.drop (u.models.zip (u.calculate_model_positions destination.1 destination.2.1 game_map 1 [])).length) })
            else none

end Engine

section HelperLemmas

lemma shortestDistance_comm (a b : Base) : a.shortestDistance b = b.shortestDistance a := by
  unfold Base.shortestDistance
  rw [setDist_comm]

lemma get_dist_comm_sub (p q r s : ℝ) : get_dist (p - q) (r - s) 0 = get_dist (q - p) (s - r) 0 := by
  unfold get_dist
  ring_nf

lemma round4_zero : round4 0 = 0 := by
  unfold round4
  norm_num

/-- `convert_mm_to_inches(32 / 2)`: a 16 mm base size in inches, rounded to
four decimals. -/
lemma convert_16mm : convert_mm_to_inches (32 / 2) = 6299 / 10000 := by
  unfold convert_mm_to_inches round4 MM_TO_INCHES
  rw [round_eq]
  have h1 : ((32:ℝ) / 2 / 25.4 * 10000 + 1 / 2) = 1600127 / 254 := by norm_num
  rw [h1]
  have h2 : ⌊(1600127 / 254 : ℝ)⌋ = 6299 := by
    apply Int.floor_eq_iff.mpr
    constructor <;> norm_num
  rw [h2]
  norm_num

end HelperLemmas

section EasyClaims

/-- C6: for every unit and obstacle, `can_traverse_freely` returns `True`
exactly when the unit flies, or the obstacle's height does not exceed the
fixed freely-climbable threshold, or the obstacle is ruins-category and the
unit is infantry, a beast, Belisarius Cawl, or an Imperium Primarch; in all
other cases it returns `False`. -/
theorem can_traverse_freely_iff (u : GameUnit) (o : Obstacle) :
    can_traverse_freely u o = true ↔
      (u.is_fly = true ∨ o.height ≤ FREELY_CLIMBABLE_RANGE ∨
        (o.terrain_type = ObstacleType.RUINS ∧
          (u.is_infantry = true ∨ u.is_beast = true ∨
           u.is_belisarius_cawl = true ∨ u.is_imperium_primarch = true))) := by
  unfold can_traverse_freely
  split_ifs with h1 h2 h3
  · simp [h1]
  · simp [h2]
  · simp only [Bool.and_eq_true, Bool.or_eq_true, decide_eq_true_eq] at h3
    simp only [true_iff]
    tauto
  · simp only [Bool.and_eq_true, Bool.or_eq_true, decide_eq_true_eq] at h3
    simp only [false_iff]
    push_neg
    refine ⟨h1, lt_of_not_le h2, fun hr => ?_⟩
    refine ⟨?_, ?_, ?_, ?_⟩ <;> · intro hf; exact h3 ⟨hr, by tauto⟩

/-- The C7 counterexample unit: a vehicle on a circular base of radius 1
(larger than 16 mm), not an aircraft. -/
def cexPivotUnit : GameUnit :=
  { models := [{ model_base := Base.makeCircular 1, movement := 6 }],
    position := none, coherency_distance := 2, required_neighbors := 0,
    faction := "A", is_fly := false, is_infantry := false, is_beast := false,
    is_belisarius_cawl := false, is_imperium_primarch := false,
    is_aircraft := false, is_monster := false, is_vehicle := true }

/-- C7 counterexample: a non-aircraft vehicle with a circular base of radius
1 incurs pivot cost 2, not 0 — refuting "every non-aircraft unit with a
circular base incurs pivot cost 0 regardless of base size". -/
theorem pivot_cost_circular_vehicle_cex :
    cexPivotUnit.is_aircraft = false ∧ cexPivotUnit.has_circular_base = true ∧
    get_pivot_cost cexPivotUnit = 2 := by
  refine ⟨rfl, by simp [GameUnit.has_circular_base, GameUnit.firstBase, cexPivotUnit,
    Base.makeCircular, Base.make], ?_⟩
  unfold get_pivot_cost
  have hsz : cexPivotUnit.base_size > convert_mm_to_inches (32 / 2) := by
    rw [convert_16mm]
    show (1 : ℝ) > 6299 / 10000
    norm_num
  have hcond : ((cexPivotUnit.is_monster || cexPivotUnit.is_vehicle) &&
      (!cexPivotUnit.has_circular_base ||
        decide (cexPivotUnit.base_size > convert_mm_to_inches (32 / 2)))) = true := by
    simp only [Bool.and_eq_true, Bool.or_eq_true, decide_eq_true_eq]
    exact ⟨Or.inr rfl, Or.inr hsz⟩
  rw [if_neg (by simp [cexPivotUnit]), if_pos hcond]

/-- C7 amended: `get_pivot_cost` is 0 for aircraft; 2 when the unit is a
monster or vehicle whose base is non-circular or larger than 16 mm
(`convert_mm_to_inches(32/2)`); otherwise 1 for a non-circular base; and 0
otherwise. -/
theorem get_pivot_cost_characterization (u : GameUnit) :
    (u.is_aircraft = true → get_pivot_cost u = 0) ∧
    (u.is_aircraft = false → (u.is_monster = true ∨ u.is_vehicle = true) →
      (u.has_circular_base = false ∨ u.base_size > convert_mm_to_inches (32 / 2)) →
      get_pivot_cost u = 2) ∧
    (u.is_aircraft = false →
      (u.is_monster = true ∨ u.is_vehicle = true) →
      u.has_circular_base = true → u.base_size ≤ convert_mm_to_inches (32 / 2) →
      get_pivot_cost u = 0) ∧
    (u.is_aircraft = false → u.is_monster = false → u.is_vehicle = false →
      u.has_circular_base = false → get_pivot_cost u = 1) ∧
    (u.is_aircraft = false → u.is_monster = false → u.is_vehicle = false →
      u.has_circular_base = true → get_pivot_cost u = 0) := by
  unfold get_pivot_cost
  refine ⟨fun h => by simp [h], ?_, ?_, ?_, ?_⟩
  · intro h1 h2 h3
    rw [if_neg (by simp [h1])]
    rw [if_pos]
    simp only [Bool.and_eq_true, Bool.or_eq_true, decide_eq_true_eq, Bool.not_eq_true']
    exact ⟨by tauto, by tauto⟩
  · intro h1 h2 h3 h4
    rw [if_neg (by simp [h1])]
    rw [if_neg, if_neg]
    · simp [h3]
    · simp only [Bool.and_eq_true, Bool.or_eq_true, decide_eq_true_eq, Bool.not_eq_true']
      rintro ⟨-, hor⟩
      rcases hor with hc | hgt
      · rw [h3] at hc; cases hc
      · exact absurd h4 (not_le.mpr hgt)
  · intro h1 h2 h3 h4
    rw [if_neg (by simp [h1])]
    rw [if_neg, if_pos]
    · simp [h4]
    · simp only [Bool.and_eq_true, Bool.or_eq_true]
      rintro ⟨hor, -⟩
      rcases hor with hm | hv
      · rw [h2] at hm; cases hm
      · rw [h3] at hv; cases hv
  · intro h1 h2 h3 h4
    rw [if_neg (by simp [h1])]
    rw [if_neg, if_neg]
    · simp [h4]
    · simp only [Bool.and_eq_true, Bool.or_eq_true]
      rintro ⟨hor, -⟩
      rcases hor with hm | hv
      · rw [h2] at hm; cases hm
      · rw [h3] at hv; cases hv

/-- C7 witness: the characterization applied to the concrete vehicle unit. -/
theorem get_pivot_cost_characterization_witness :
    cexPivotUnit.is_aircraft = false ∧ get_pivot_cost cexPivotUnit = 2 :=
  ⟨rfl, (get_pivot_cost_characterization cexPivotUnit).2.1 rfl (Or.inr rfl)
    (Or.inr (by rw [convert_16mm]; show (1:ℝ) > 6299 / 10000; norm_num))⟩

/-- The base used by the C9 counterexample. -/
def cexFacingBase : Base := Base.makeCircular 1

/-- C9 counterexample: `Base.set_facing` stores its argument unchanged, so
after `set_facing(-1)` the stored facing is `-1`, outside `[0, 2π)`. -/
theorem set_facing_not_normalized_cex :
    ¬ (0 ≤ (cexFacingBase.set_facing (-1)).facing ∧
       (cexFacingBase.set_facing (-1)).facing < 2 * Real.pi) := by
  rintro ⟨h, -⟩
  simp only [Base.set_facing] at h
  norm_num at h

/-- C9 amended: the facing-writing operations perform no normalization at
all — `Base.set_facing` and `Model.set_location` store the facing argument
exactly as given, so the stored facing lies in `[0, 2π)` only when the
written value does. -/
theorem facing_writes_store_argument (b : Base) (mo : Model) (x y z f : ℝ) :
    (b.set_facing f).facing = f ∧ (mo.set_location x y z f).model_base.facing = f :=
  ⟨rfl, rfl⟩

end EasyClaims

noncomputable section RadiusClaims

/-- The C8 counterexample base: an ellipse with semi-major axis `1/3`, whose
four-decimal rounding is not `1/3`. -/
def cexEllipse : Base := Base.make .ELLIPTICAL (1/3, 1/4)

lemma cexEllipse_full_angle : cexEllipse.fullAngle 0 = Real.pi := by
  unfold Base.fullAngle cexEllipse Base.make
  norm_num

/-- C8 counterexample: at world angle equal to the facing (0), `getRadius`
of the ellipse with semi-axes `(1/3, 1/4)` returns `round4 (1/3) =
0.3333`, not the semi-major axis `1/3`. -/
theorem elliptical_radius_round_cex :
    cexEllipse.getRadius 0 ≠ cexEllipse.radius.1 := by
  have hval : cexEllipse.getRadius 0 = round4 (1/3) := by
    show cexEllipse.ellipticalRadius 0 = round4 (1/3)
    unfold Base.ellipticalRadius
    rw [cexEllipse_full_angle, Real.sin_pi, Real.cos_pi]
    have hr1 : cexEllipse.radius.1 = 1/3 := rfl
    have hr2 : cexEllipse.radius.2 = 1/4 := rfl
    rw [hr1, hr2]
    have hsq : ((1:ℝ)/3) ^ 2 * 0 ^ 2 + ((1:ℝ)/4) ^ 2 * (-1) ^ 2 = (1/4) ^ 2 := by norm_num
    rw [hsq, Real.sqrt_sq (by norm_num : (0:ℝ) ≤ 1/4)]
    norm_num
  rw [hval]
  have : round4 (1/3) = 3333 / 10000 := by
    unfold round4
    rw [round_eq]
    have h1 : ((1:ℝ)/3 * 10000 + 1/2) = 20003 / 6 := by norm_num
    rw [h1]
    have h2 : ⌊(20003 / 6 : ℝ)⌋ = 3333 := by
      apply Int.floor_eq_iff.mpr
      constructor <;> norm_num
    rw [h2]
    norm_num
  rw [this]
  show (3333 / 10000 : ℝ) ≠ 1/3
  norm_num

/-- C8 amended: for every elliptical base with positive semi-axes `(a, b)`
and every facing `f`, `getRadius` at world angle `f` is the semi-major axis
rounded to four decimals, and at `f + 90°` the semi-minor axis rounded to
four decimals (rotation invariance up to the source's output rounding). -/
theorem elliptical_radius_rotation_invariant (a b f : ℝ) (ha : 0 < a) (hb : 0 < b) :
    ((Base.make .ELLIPTICAL (a, b)).set_facing f).getRadius f = round4 a ∧
    ((Base.make .ELLIPTICAL (a, b)).set_facing f).getRadius (f + Real.pi / 2) = round4 b := by
  constructor
  · show ((Base.make .ELLIPTICAL (a, b)).set_facing f).ellipticalRadius f = round4 a
    unfold Base.ellipticalRadius Base.fullAngle Base.set_facing Base.make
    simp only
    have hfull : Real.pi - f + f = Real.pi := by ring
    rw [hfull, Real.sin_pi, Real.cos_pi]
    have hsq : a ^ 2 * 0 ^ 2 + b ^ 2 * (-1:ℝ) ^ 2 = b ^ 2 := by ring
    rw [hsq, Real.sqrt_sq hb.le]
    rw [mul_div_assoc, div_self hb.ne', mul_one]
  · show ((Base.make .ELLIPTICAL (a, b)).set_facing f).ellipticalRadius (f + Real.pi / 2) = round4 b
    unfold Base.ellipticalRadius Base.fullAngle Base.set_facing Base.make
    simp only
    have hfull : Real.pi - f + (f + Real.pi / 2) = Real.pi + Real.pi / 2 := by ring
    rw [hfull, Real.sin_add, Real.cos_add, Real.sin_pi, Real.cos_pi,
      Real.sin_pi_div_two, Real.cos_pi_div_two]
    have hsq : a ^ 2 * (0 * 0 + -1 * 1) ^ 2 + b ^ 2 * (-1 * 0 - 0 * 1) ^ 2 = a ^ 2 := by ring
    rw [hsq, Real.sqrt_sq ha.le]
    rw [show a * b / a = b * (a / a) by ring, div_self ha.ne', mul_one]

/-- C8 witness: the amended claim at the ellipse `(60, 35)` with facing 0. -/
theorem elliptical_radius_rotation_invariant_witness :
    ((Base.make .ELLIPTICAL (60, 35)).set_facing 0).getRadius 0 = round4 60 ∧
    ((Base.make .ELLIPTICAL (60, 35)).set_facing 0).getRadius (0 + Real.pi / 2) = round4 35 :=
  elliptical_radius_rotation_invariant 60 35 0 (by norm_num) (by norm_num)

/-- The C10 counterexample base: a square hull with half-extents `(1, 1)`,
facing 0. -/
def cexHull : Base := Base.make .HULL (1, 1)

lemma cexHull_full_angle : cexHull.fullAngle Real.pi = 2 * Real.pi := by
  unfold Base.fullAngle cexHull Base.make
  ring

/-- C10 counterexample: at facing 0 and world angle π the hull radius
computation has `full_angle = 2π`, which falls outside both sectors of the
first branch, so the source divides `major` by `tan(full_angle) = 0` —
refuting "no branch divides by a zero tangent".  (Under the total division
of the embedding the asserted radius still evaluates to a positive value;
in Python the float `tan(2π)` is merely a denormal-scale number, so the
division produces an absurdly large radius instead of an error.) -/
theorem hull_zero_tangent_branch_cex :
    ¬ hullInSector (cexHull.fullAngle Real.pi) cexHull.hullCornerAngle ∧
    Real.tan (cexHull.fullAngle Real.pi) = 0 := by
  have hcorner : cexHull.hullCornerAngle = Real.pi / 4 := by
    unfold Base.hullCornerAngle cexHull Base.make
    norm_num [Real.arctan_one]
  constructor
  · rw [cexHull_full_angle, hcorner]
    rintro (⟨-, h⟩ | ⟨-, h⟩) <;> nlinarith [Real.pi_pos]
  · rw [cexHull_full_angle]
    have h2 : (2:ℝ) * Real.pi = Real.pi + Real.pi := by ring
    rw [h2, Real.tan_periodic Real.pi, Real.tan_pi]

/-- C10 amended: for every base with both radii strictly positive and every
angle, the raw hull radius (the value the source's `assert radius > 0`
inspects) is strictly positive, so the assertion never fails; but the
well-definedness clause of the claim is false — the non-sector branch can
divide by a zero tangent (see the counterexample). -/
theorem hull_radius_raw_positive (b : Base) (angle : ℝ)
    (ht : b.base_type = BaseType.HULL)
    (h1 : 0 < b.radius.1) (h2 : 0 < b.radius.2) :
    0 < b.hullRadiusRaw angle := by
  unfold Base.hullRadiusRaw get_dist
  dsimp only
  split_ifs
  · apply Real.sqrt_pos.mpr
    nlinarith [sq_nonneg (b.radius.1 * Real.tan (b.fullAngle angle))]
  · apply Real.sqrt_pos.mpr
    nlinarith [sq_nonneg (b.radius.2 / Real.tan (b.fullAngle angle))]

/-- C10 witness: positivity of the asserted hull radius at a concrete hull
base and angle. -/
theorem hull_radius_raw_positive_witness :
    (Base.make .HULL (1, 2)).base_type = BaseType.HULL ∧
    0 < (Base.make .HULL (1, 2)).hullRadiusRaw 0 :=
  ⟨rfl, hull_radius_raw_positive _ 0 rfl (by norm_num [Base.make]) (by norm_num [Base.make])⟩

end RadiusClaims

noncomputable section CollisionClaims

/-- The C3 counterexample pair: two identical circular bases at the same
planar position, one raised 10 units above the other. -/
def cexBaseLow : Base := Base.makeCircular 1

/-- The raised copy of `cexBaseLow`. -/
def cexBaseHigh : Base := { Base.makeCircular 1 with z := 10 }

lemma origin_mem_unit_circle_shape :
    ((0:ℝ), (0:ℝ)) ∈ create_ellipse (0, 0) (1, 1) 0 := by
  refine ⟨(0, 0), by norm_num, ?_⟩
  unfold rot
  norm_num

lemma cexBaseHigh_collides_low : cexBaseHigh.collidesWithBase cexBaseLow := by
  unfold Base.collidesWithBase
  refine ⟨?_, ?_, ?_⟩
  · show ¬ ((0:ℝ) - 10 > cexBaseHigh.model_height)
    have : cexBaseHigh.model_height = 2 := by
      unfold cexBaseHigh Base.makeCircular Base.make
      norm_num
    rw [this]
    norm_num
  · have hld : cexBaseHigh.longestDistance = 1 ∧ cexBaseLow.longestDistance = 1 := by
      constructor <;>
        simp [Base.longestDistance, cexBaseHigh, cexBaseLow, Base.makeCircular, Base.make]
    have hd : get_dist (cexBaseLow.x - cexBaseHigh.x) (cexBaseLow.y - cexBaseHigh.y) 0 = 0 := by
      show get_dist (0 - 0) (0 - 0) 0 = 0
      unfold get_dist
      norm_num
    rw [hld.1, hld.2, hd]
    norm_num
  · unfold Base.shortestDistance
    have hz : setDist cexBaseHigh.getShape cexBaseLow.getShape = 0 := by
      apply setDist_eq_zero_of_mem_inter (p := ((0:ℝ), (0:ℝ)))
      · show ((0:ℝ), (0:ℝ)) ∈ cexBaseHigh.getShapeAt (0, 0)
        exact origin_mem_unit_circle_shape
      · show ((0:ℝ), (0:ℝ)) ∈ cexBaseLow.getShapeAt (0, 0)
        exact origin_mem_unit_circle_shape
    rw [hz, round4_zero]

/-- C3 counterexample: the footprint collision test is not symmetric — with
one base 10 units above the other, the lower-to-higher test takes the
elevation early exit (`False`) while the higher-to-lower test falls through
to the planar geometry and reports a collision. -/
theorem collides_with_base_asymmetric_cex :
    ¬ (cexBaseLow.collidesWithBase cexBaseHigh ↔ cexBaseHigh.collidesWithBase cexBaseLow) := by
  intro hIff
  have hlow := hIff.mpr cexBaseHigh_collides_low
  obtain ⟨h1, -, -⟩ := hlow
  apply h1
  show cexBaseHigh.z - cexBaseLow.z > cexBaseLow.model_height
  have hmh : cexBaseLow.model_height = 2 := by
    unfold cexBaseLow Base.makeCircular Base.make
    norm_num
  have hz1 : cexBaseHigh.z = 10 := rfl
  have hz0 : cexBaseLow.z = 0 := rfl
  rw [hmh, hz1, hz0]
  norm_num

/-- C3 amended: the collision test is symmetric for bases at equal
elevation (with the usual nonnegative model heights); the asymmetry is
confined to the elevation early exit. -/
theorem collides_with_base_symm_same_z (a b : Base) (hz : a.z = b.z)
    (ha : 0 ≤ a.model_height) (hb : 0 ≤ b.model_height) :
    (a.collidesWithBase b ↔ b.collidesWithBase a) := by
  unfold Base.collidesWithBase
  constructor
  · rintro ⟨-, h2, h3⟩
    refine ⟨?_, ?_, ?_⟩
    · rw [hz]; simp; linarith
    · rw [get_dist_comm_sub]
      rw [add_comm b.longestDistance]
      exact h2
    · rw [shortestDistance_comm]
      exact h3
  · rintro ⟨-, h2, h3⟩
    refine ⟨?_, ?_, ?_⟩
    · rw [hz]; simp; linarith
    · rw [get_dist_comm_sub]
      rw [add_comm a.longestDistance]
      exact h2
    · rw [shortestDistance_comm]
      exact h3

/-- A circular base shifted 5 units along x (C3 witness data). -/
def witBaseShifted : Base := { Base.makeCircular 1 with x := 5 }

/-- C3 witness: the amended symmetry applied at two concrete bases at equal
elevation. -/
theorem collides_with_base_symm_same_z_witness :
    cexBaseLow.z = witBaseShifted.z ∧
    (cexBaseLow.collidesWithBase witBaseShifted ↔ witBaseShifted.collidesWithBase cexBaseLow) :=
  ⟨rfl, collides_with_base_symm_same_z _ _ rfl
    (by unfold cexBaseLow Base.makeCircular Base.make; norm_num)
    (by unfold witBaseShifted Base.makeCircular Base.make; norm_num)⟩

/-- C5: cheap-rejection soundness — whenever the straight-line center
distance exceeds the sum of the two `longestDistance` values, the two
materialised footprint shapes are disjoint (any shape kinds and facings;
radii nonnegative per the data-model invariant). -/
theorem cheap_rejection_sound (a b : Base)
    (ha1 : 0 ≤ a.radius.1) (ha2 : 0 ≤ a.radius.2)
    (hb1 : 0 ≤ b.radius.1) (hb2 : 0 ≤ b.radius.2)
    (hfar : a.longestDistance + b.longestDistance <
      get_dist (b.x - a.x) (b.y - a.y) 0) :
    ∀ p, p ∈ a.getShape → p ∉ b.getShape := by
  intro p hpa hpb
  have d1 : pdist p (a.x, a.y) ≤ a.longestDistance := getShapeAt_subset_ball ha1 ha2 hpa
  have d2 : pdist p (b.x, b.y) ≤ b.longestDistance := getShapeAt_subset_ball hb1 hb2 hpb
  have tri : pdist (a.x, a.y) (b.x, b.y) ≤
      pdist (a.x, a.y) p + pdist p (b.x, b.y) := pdist_triangle _ _ _
  have hcd : pdist (a.x, a.y) (b.x, b.y) = get_dist (b.x - a.x) (b.y - a.y) 0 := by
    show get_dist (a.x - b.x) (a.y - b.y) 0 = get_dist (b.x - a.x) (b.y - a.y) 0
    exact get_dist_comm_sub _ _ _ _
  rw [pdist_comm (a.x, a.y) p] at tri
  linarith

/-- The far-away base of the C5 witness. -/
def witBaseFar : Base := { Base.makeCircular 1 with x := 10 }

/-- C5 witness: the soundness theorem applied to two concrete unit-radius
circular bases with centers 10 apart. -/
theorem cheap_rejection_sound_witness :
    cexBaseLow.longestDistance + witBaseFar.longestDistance <
      get_dist (witBaseFar.x - cexBaseLow.x) (witBaseFar.y - cexBaseLow.y) 0 ∧
    ∀ p, p ∈ cexBaseLow.getShape → p ∉ witBaseFar.getShape := by
  have hfar : cexBaseLow.longestDistance + witBaseFar.longestDistance <
      get_dist (witBaseFar.x - cexBaseLow.x) (witBaseFar.y - cexBaseLow.y) 0 := by
    have h1 : cexBaseLow.longestDistance = 1 := by
      unfold Base.longestDistance cexBaseLow Base.makeCircular Base.make
      norm_num
    have h2 : witBaseFar.longestDistance = 1 := by
      unfold Base.longestDistance witBaseFar Base.makeCircular Base.make
      norm_num
    have h3 : get_dist (witBaseFar.x - cexBaseLow.x) (witBaseFar.y - cexBaseLow.y) 0 = 10 := by
      show get_dist (10 - 0) (0 - 0) 0 = 10
      unfold get_dist
      rw [show ((10:ℝ) - 0) ^ 2 + (0 - 0) ^ 2 + 0 ^ 2 = 10 ^ 2 by norm_num]
      exact Real.sqrt_sq (by norm_num)
    rw [h1, h2, h3]
    norm_num
  exact ⟨hfar, cheap_rejection_sound cexBaseLow witBaseFar
    (by unfold cexBaseLow Base.makeCircular Base.make; norm_num)
    (by unfold cexBaseLow Base.makeCircular Base.make; norm_num)
    (by unfold witBaseFar Base.makeCircular Base.make; norm_num)
    (by unfold witBaseFar Base.makeCircular Base.make; norm_num)
    hfar⟩

end CollisionClaims

noncomputable section CoherencyClaim

/-- Removal of the element at an index: the list of "other" positions for a
given member of a configuration. -/
def dropIdx {α : Type} : List α → ℕ → List α
  | [], _ => []
  | _ :: l, 0 => l
  | a :: l, n + 1 => a :: dropIdx l n

lemma dropIdx_append_of_lt {α : Type} (l l2 : List α) :
    ∀ i, i < l.length → dropIdx (l ++ l2) i = dropIdx l i ++ l2 := by
  induction l with
  | nil => intro i h; cases h
  | cons a t ih =>
      intro i h
      cases i with
      | zero => rfl
      | succ n =>
          show a :: dropIdx (t ++ l2) n = (a :: dropIdx t n) ++ l2
          rw [List.cons_append, ih n (Nat.lt_of_succ_lt_succ h)]

lemma dropIdx_concat_length {α : Type} (l : List α) (c : α) :
    dropIdx (l ++ [c]) l.length = l := by
  induction l with
  | nil => rfl
  | cons a t ih =>
      show a :: dropIdx (t ++ [c]) t.length = a :: t
      rw [ih]

lemma pcount_le_length {α : Type} (P : α → Prop) (l : List α) : pcount P l ≤ l.length := by
  induction l with
  | nil => simp [pcount]
  | cons a t ih =>
      simp only [pcount, List.length_cons]
      split_ifs <;> omega

open Classical in
lemma pcount_append {α : Type} (P : α → Prop) (l1 l2 : List α) :
    pcount P (l1 ++ l2) = pcount P l1 + pcount P l2 := by
  induction l1 with
  | nil => simp [pcount]
  | cons a t ih =>
      show (if P a then 1 else 0) + pcount P (t ++ l2) =
        ((if P a then 1 else 0) + pcount P t) + pcount P l2
      rw [ih]
      omega

lemma pcount_singleton_of (P : Pos4 → Prop) (a : Pos4) (h : P a) : pcount P [a] = 1 := by
  simp [pcount, h]

lemma pcount_singleton_ge {α : Type} {P : α → Prop} {a : α} (h : 1 ≤ pcount P [a]) : P a := by
  by_contra hn
  simp [pcount, hn] at h

open Classical in
lemma pcount_all_of_ge_length {α : Type} {P : α → Prop} :
    ∀ (l : List α), l.length ≤ pcount P l → ∀ a ∈ l, P a := by
  intro l
  induction l with
  | nil => intro _ a ha; cases ha
  | cons b t ih =>
      intro h a ha
      have he : pcount P (b :: t) = (if P b then 1 else 0) + pcount P t := rfl
      have hite : (if P b then 1 else 0) ≤ 1 := by split_ifs <;> omega
      have hle := pcount_le_length P t
      simp only [List.length_cons] at h
      have hb : P b := by
        by_contra hnb
        rw [if_neg hnb] at he
        omega
      rcases List.mem_cons.mp ha with rfl | hat
      · exact hb
      · exact ih (by omega) a hat

/-- The symmetric pairwise form of the coherency closeness test. -/
def posClose (u : GameUnit) (p q : Pos4) : Prop :=
  setDist ((u.create_potential_base p.x p.y p.z p.facing).getShape)
    ((u.create_potential_base q.x q.y q.z q.facing).getShape) ≤ u.coherency_distance

lemma posClose_symm (u : GameUnit) (p q : Pos4) : posClose u p q ↔ posClose u q p := by
  unfold posClose
  rw [setDist_comm]

lemma is_coherent_iff (u : GameUnit) (c : Pos4) (ps : List Pos4) :
    u.is_coherent_within_unit c.x c.y c.z c.facing ps ↔
      (if ps.length = 0 then 0 else if ps.length = 1 then 1 else u.required_neighbors) ≤
        pcount (posClose u c) ps :=
  Iff.rfl

/-- The needed-neighbor count maintained by the solver as a configuration
grows (0 for a singleton, 1 for a pair, the unit's `required_neighbors`
from three members on). -/
def neededFor (u : GameUnit) (n : ℕ) : ℕ :=
  if n ≤ 1 then 0 else if n = 2 then 1 else u.required_neighbors

/-- Invariant: every member of the configuration already has enough close
neighbors among the others, for the current configuration size. -/
def CoherentConfig (u : GameUnit) (ps : List Pos4) : Prop :=
  ∀ i p, ps[i]? = some p → neededFor u ps.length ≤ pcount (posClose u p) (dropIdx ps i)

lemma coherentConfig_nil (u : GameUnit) : CoherentConfig u [] := by
  intro i p hip
  simp at hip

lemma coherent_extend (u : GameUnit) (ps : List Pos4) (c : Pos4)
    (hInv : CoherentConfig u ps)
    (hcoh : ps ≠ [] → u.is_coherent_within_unit c.x c.y c.z c.facing ps) :
    CoherentConfig u (ps ++ [c]) := by
  intro i p hip
  have hlen : (ps ++ [c]).length = ps.length + 1 := by simp
  obtain ⟨hilt, -⟩ := List.getElem?_eq_some.mp hip
  rw [hlen] at hilt
  rw [hlen]
  rcases Nat.lt_or_ge i ps.length with hlt | hge
  · -- an already-placed member keeps (and possibly gains) neighbors
    have hip' : ps[i]? = some p := by
      rw [List.getElem?_append, if_pos hlt] at hip
      exact hip
    have hF1 := hInv i p hip'
    have hmem : p ∈ ps := List.mem_iff_getElem?.mpr ⟨i, hip'⟩
    have hpsne : ps ≠ [] := by
      intro hnil
      rw [hnil] at hlt
      cases hlt
    rw [dropIdx_append_of_lt ps [c] i hlt, pcount_append]
    have hco' := (is_coherent_iff u c ps).mp (hcoh hpsne)
    have hkle := pcount_le_length (posClose u c) ps
    by_cases hbig : ps.length ≤ pcount (posClose u c) ps
    · -- every already-placed member, in particular p, is close to c
      have hall := pcount_all_of_ge_length ps hbig
      have hnew : pcount (posClose u p) [c] = 1 :=
        pcount_singleton_of _ _ ((posClose_symm u c p).mp (hall p hmem))
      rw [hnew]
      unfold neededFor at hF1 ⊢
      split_ifs at hco' hF1 ⊢ <;> omega
    · have hklt : pcount (posClose u c) ps < ps.length := not_le.mp hbig
      unfold neededFor at hF1 ⊢
      split_ifs at hco' hF1 ⊢ <;> omega
  · -- the newly placed member: its neighbors are exactly the old members
    have hieq : i = ps.length := by omega
    subst hieq
    have hpc : p = c := by
      have hcc := List.getElem?_concat_length ps c
      rw [hcc] at hip
      exact (Option.some.inj hip).symm
    subst hpc
    rw [dropIdx_concat_length]
    by_cases hps0 : ps = []
    · subst hps0
      unfold neededFor
      norm_num
    · have hco' := (is_coherent_iff u p ps).mp (hcoh hps0)
      have hlenpos : 0 < ps.length := List.length_pos.mpr hps0
      unfold neededFor
      split_ifs at hco' ⊢ <;> omega

lemma pfind_some {α : Type} {P : α → Prop} :
    ∀ {l : List α} {a : α}, pfind P l = some a → P a := by
  intro l
  induction l with
  | nil => intro a h; cases h
  | cons b t ih =>
      intro a h
      unfold pfind at h
      split_ifs at h with hb
      · rw [← Option.some.inj h]; exact hb
      · exact ih h

lemma tryPlace_some_spec (u : GameUnit) (m : Map) (sx sy : ℝ) (model : Model)
    (ps : List Pos4) (c : Pos4) :
    ∀ n, tryPlace u m sx sy model ps n = some c →
      (ps = [] ∧ c = ⟨sx, sy, 0, 0⟩) ∨
      (ps ≠ [] ∧ u.is_coherent_within_unit c.x c.y c.z c.facing ps) := by
  intro n
  induction n with
  | zero => intro h; cases h
  | succ k ih =>
      intro h
      unfold tryPlace at h
      split_ifs at h with hps
      · exact Or.inl ⟨hps, (Option.some.inj h).symm⟩
      · rcases hfind : pfind (fun c =>
            ¬ u.collides_with_unit_models c.x c.y c.z c.facing ps ∧
            u.is_coherent_within_unit c.x c.y c.z c.facing ps)
            (u.find_strategic_position model ps m) with _ | c2
        · rw [hfind] at h
          exact ih h
        · rw [hfind] at h
          have hc2 := pfind_some hfind
          rw [Option.some.inj h] at hc2
          exact Or.inr ⟨hps, hc2.2⟩

lemma placeModels_coherent (u : GameUnit) (m : Map) (sx sy : ℝ) :
    ∀ (models : List Model) (ps qs : List Pos4),
      placeModels u m sx sy models ps = qs → qs ≠ [] →
      CoherentConfig u ps → CoherentConfig u qs := by
  intro models
  induction models with
  | nil =>
      intro ps qs h hne hInv
      rw [← h]
      exact hInv
  | cons model rest ih =>
      intro ps qs h hne hInv
      unfold placeModels at h
      rcases htp : tryPlace u m sx sy model ps 100 with _ | c
      · rw [htp] at h
        exact absurd h.symm hne
      · rw [htp] at h
        refine ih _ _ h hne (coherent_extend u ps c hInv ?_)
        intro hpsne
        rcases tryPlace_some_spec u m sx sy model ps c 100 htp with ⟨hempty, -⟩ | ⟨-, hcoh⟩
        · exact absurd hempty hpsne
        · exact hcoh

lemma placeModels_length (u : GameUnit) (m : Map) (sx sy : ℝ) :
    ∀ (models : List Model) (ps qs : List Pos4),
      placeModels u m sx sy models ps = qs → qs ≠ [] →
      qs.length = ps.length + models.length := by
  intro models
  induction models with
  | nil =>
      intro ps qs h _
      rw [← h]
      simp [placeModels]
  | cons model rest ih =>
      intro ps qs h hne
      unfold placeModels at h
      rcases htp : tryPlace u m sx sy model ps 100 with _ | c
      · rw [htp] at h
        exact absurd h.symm hne
      · rw [htp] at h
        have := ih _ _ h hne
        simp only [List.length_append, List.length_cons, List.length_nil] at this ⊢
        omega

lemma requiredForCount_le_neededFor (u : GameUnit) (n : ℕ) (hn : 0 < n)
    (hreq : u.required_neighbors = requiredForCount n) :
    requiredForCount n ≤ neededFor u n := by
  unfold requiredForCount at hreq
  unfold neededFor requiredForCount
  rcases n with _ | _ | _ | k
  · omega
  · norm_num
  · norm_num
  · split_ifs at hreq ⊢ <;> omega

/-- C4: whenever the coherency placement solver succeeds —
`calculate_model_positions` (with no seeded positions) returns a nonempty
configuration — every returned position has at least `required_neighbors`
other positions of the configuration whose materialised footprints lie
within the coherency distance edge-to-edge (the `setDist` of the shapes,
i.e. shape-boundary to shape-boundary).  The unit's `required_neighbors`
field is assumed consistent with its model count, as `update_coherency`
maintains it. -/
theorem solver_output_coherent (u : GameUnit) (sx sy zoom : ℝ) (m : Map) (ps : List Pos4)
    (hrun : u.calculate_model_positions sx sy m zoom [] = ps)
    (hne : ps ≠ [])
    (hreq : u.required_neighbors = requiredForCount u.models.length) :
    ∀ i p, ps[i]? = some p →
      u.required_neighbors ≤ pcount (posClose u p) (dropIdx ps i) := by
  unfold GameUnit.calculate_model_positions at hrun
  have hcfg : CoherentConfig u ps :=
    placeModels_coherent u m _ _ u.models [] ps hrun hne (coherentConfig_nil u)
  have hlen : ps.length = u.models.length := by
    have := placeModels_length u m _ _ u.models [] ps hrun hne
    simpa using this
  intro i p hip
  refine le_trans ?_ (hcfg i p hip)
  rw [hlen, hreq]
  have hpos : 0 < u.models.length := by
    rcases Nat.eq_zero_or_pos u.models.length with h0 | hp
    · exact absurd (List.length_eq_zero.mp (hlen.trans h0)) hne
    · exact hp
  exact requiredForCount_le_neededFor u _ hpos hreq

/-- The single-model unit used as C4 witness data. -/
def witSolverUnit : GameUnit :=
  { models := [{ model_base := Base.makeCircular 1, movement := 6 }],
    position := none, coherency_distance := 2, required_neighbors := 0,
    faction := "A", is_fly := false, is_infantry := false, is_beast := false,
    is_belisarius_cawl := false, is_imperium_primarch := false,
    is_aircraft := false, is_monster := false, is_vehicle := false }

/-- The empty 44×60 map used by the concrete runs. -/
def emptyMap : Map := { width := 44, height := 60, obstacles := [], units := [] }

lemma tryPlace_empty (u : GameUnit) (m : Map) (sx sy : ℝ) (model : Model) (n : ℕ) :
    tryPlace u m sx sy model [] (n + 1) = some ⟨sx, sy, 0, 0⟩ := by
  unfold tryPlace
  rw [if_pos rfl]

lemma witSolver_run :
    witSolverUnit.calculate_model_positions 5 5 emptyMap 1 [] = [⟨5, 5, 0, 0⟩] := by
  unfold GameUnit.calculate_model_positions
  show placeModels witSolverUnit emptyMap (5 / 1) (5 / 1) witSolverUnit.models [] = _
  have hm : witSolverUnit.models = [{ model_base := Base.makeCircular 1, movement := 6 }] := rfl
  rw [hm]
  simp only [placeModels]
  rw [show (100 : ℕ) = 99 + 1 from rfl, tryPlace_empty]
  simp only [placeModels, List.nil_append]
  norm_num

/-- C4 witness: a successful one-model placement whose configuration
satisfies the coherency conclusion. -/
theorem solver_output_coherent_witness :
    witSolverUnit.calculate_model_positions 5 5 emptyMap 1 [] = [⟨5, 5, 0, 0⟩] ∧
    witSolverUnit.required_neighbors = requiredForCount witSolverUnit.models.length ∧
    ∀ i p, ([(⟨5, 5, 0, 0⟩ : Pos4)])[i]? = some p →
      witSolverUnit.required_neighbors ≤ pcount (posClose witSolverUnit p) (dropIdx [⟨5, 5, 0, 0⟩] i) :=
  ⟨witSolver_run, by simp [witSolverUnit, requiredForCount],
    solver_output_coherent witSolverUnit 5 5 1 emptyMap _ witSolver_run (by simp)
      (by simp [witSolverUnit, requiredForCount])⟩

end CoherencyClaim

noncomputable section MoveTraceInfra

open Classical

lemma get_dist_self_zero : get_dist 0 0 0 = 0 := by
  unfold get_dist
  norm_num

lemma get_dist_zero_left {y : ℝ} (hy : 0 ≤ y) : get_dist 0 y 0 = y := by
  unfold get_dist
  rw [show (0:ℝ) ^ 2 + y ^ 2 + 0 ^ 2 = y ^ 2 by ring]
  exact Real.sqrt_sq hy

lemma get_dist_zero_left_neg {y : ℝ} (hy : 0 ≤ y) : get_dist 0 (-y) 0 = y := by
  unfold get_dist
  rw [show (0:ℝ) ^ 2 + (-y) ^ 2 + 0 ^ 2 = y ^ 2 by ring]
  exact Real.sqrt_sq hy

lemma round4_eq (x : ℝ) (n : ℤ) (h1 : (n : ℝ) ≤ x * 10000 + 1/2)
    (h2 : x * 10000 + 1/2 < n + 1) : round4 x = n / 10000 := by
  unfold round4
  rw [round_eq]
  have hfl : ⌊x * 10000 + 1/2⌋ = n := by
    rw [Int.floor_eq_iff]
    exact ⟨h1, h2⟩
  rw [hfl]

lemma round4_one_twentieth : round4 ((1:ℝ)/20) = 1/20 := by
  rw [round4_eq ((1:ℝ)/20) 500 (by norm_num) (by norm_num)]
  norm_num

lemma round4_one : round4 (1:ℝ) = 1 := by
  rw [round4_eq (1:ℝ) 10000 (by norm_num) (by norm_num)]
  norm_num

lemma getRadius_circular (b : Base) (h : b.base_type = .CIRCULAR) (ang : ℝ) :
    b.getRadius ang = round4 b.radius.1 := by
  unfold Base.getRadius
  rw [h]

lemma heuristic_eval (a b : Pt) : heuristic a b = get_dist (a.1 - b.1) (a.2 - b.2) 0 := rfl

lemma popMin_singleton (e : ℝ × Pt) : popMin [e] = some (e, []) := by
  unfold popMin eraseFirst
  simp

lemma reconstructPath_trivial (cur : Pt) (n : ℕ) :
    reconstructPath (fun _ => none) (n + 1) cur = [] := by
  unfold reconstructPath
  rfl

/-- If the goal condition already holds at the start point, `a_star` returns
the two-point path `[start, goal]` on its first iteration, regardless of the
obstacle list. -/
lemma aStar_immediate (model : Model) (obstacles : List Obstacle) (target : Pos4)
    (hgoal :
      ((target.x, target.y) : Pt) ∈
          model.model_base.getShapeAt (model.model_base.x, model.model_base.y) ∨
        heuristic (model.model_base.x, model.model_base.y) (target.x, target.y) < 0.1) :
    a_star model obstacles target =
      some (some [(model.model_base.x, model.model_base.y), (target.x, target.y)]) := by
  unfold a_star
  rw [show (50000 : ℕ) = 49999 + 1 from rfl]
  unfold aStarAux
  rw [popMin_singleton]
  simp only
  rw [if_pos hgoal]
  rw [show (500000 : ℕ) = 499999 + 1 from rfl, reconstructPath_trivial]
  simp

lemma path_distance_pair (a b : Pt) :
    path_distance [a, b] = get_dist (b.1 - a.1) (b.2 - a.2) 0 := by
  unfold path_distance
  simp [path_distance]

/-- A base shape fits inside the rectangular boundary whenever its bounding
ball does. -/
lemma within_boundary_of_ball (m : Map) (model : Model) (p : Pt)
    (h1 : 0 ≤ model.model_base.radius.1) (h2 : 0 ≤ model.model_base.radius.2)
    (hx1 : model.model_base.longestDistance ≤ p.1)
    (hx2 : p.1 + model.model_base.longestDistance ≤ m.width)
    (hy1 : model.model_base.longestDistance ≤ p.2)
    (hy2 : p.2 + model.model_base.longestDistance ≤ m.height) :
    m.is_within_boundary model p := by
  intro q hq
  have hball := getShapeAt_subset_ball h1 h2 hq
  have hfx := abs_fst_le_pdist q p
  have hfy := abs_snd_le_pdist q p
  have hax := abs_le.mp (le_trans hfx hball)
  have hay := abs_le.mp (le_trans hfy hball)
  refine ⟨by linarith [hax.1], by linarith [hax.2], by linarith [hay.1], by linarith [hay.2]⟩

lemma no_obstacle_collision_of_empty (m : Map) (u : GameUnit) (model : Model) (p : Pt)
    (h : m.obstacles = []) : ¬ m.check_collision_with_obstacles u model p := by
  rintro ⟨obs, hobs, -⟩
  rw [h] at hobs
  exact absurd hobs (List.not_mem_nil obs)

lemma no_unit_collision_of_empty (m : Map) (u : GameUnit) (model : Model) (p : Pt)
    (h : m.units = []) : ¬ m.check_collision_with_other_units u model p := by
  rintro ⟨other, hother, -⟩
  rw [h] at hother
  exact absurd hother (List.not_mem_nil other)

/-- Vertical extreme points of a materialised (facing-0) ellipse. -/
lemma mem_create_ellipse_vert (c : Pt) (len : Pt) (v : ℝ) (hv : v = 1 ∨ v = -1) :
    ((c.1, c.2 + len.1 * v) : Pt) ∈ create_ellipse c len 0 := by
  refine ⟨(0, v), by rcases hv with rfl | rfl <;> norm_num, ?_⟩
  unfold rot
  rw [Real.cos_zero, Real.sin_zero]
  simp

end MoveTraceInfra

noncomputable section MoveReturnClaim

open Classical

lemma calc_positions_single (u : GameUnit) (mo : Model) (m : Map) (sx sy : ℝ)
    (hm : u.models = [mo]) :
    u.calculate_model_positions sx sy m 1 [] = [⟨sx / 1, sy / 1, 0, 0⟩] := by
  unfold GameUnit.calculate_model_positions
  rw [hm]
  simp only [placeModels]
  rw [show (100 : ℕ) = 99 + 1 from rfl, tryPlace_empty]
  simp only [placeModels, List.nil_append]

/-- The C2 unit: one vehicle model on a circular radius-1 base at
`(22, 30)`, movement characteristic 0. -/
def cexMoveModel : Model :=
  { model_base := { Base.makeCircular 1 with x := 22, y := 30 }, movement := 0 }

/-- The C2 unit wrapping `cexMoveModel`. -/
def cexMoveUnit : GameUnit :=
  { models := [cexMoveModel],
    position := some (22, 30, 0), coherency_distance := 2, required_neighbors := 0,
    faction := "A", is_fly := false, is_infantry := false, is_beast := false,
    is_belisarius_cawl := false, is_imperium_primarch := false,
    is_aircraft := false, is_monster := false, is_vehicle := true }

/-- The state `Unit.move` leaves behind in the C2 run. -/
def cexMoveUnitAfter : GameUnit :=
  GameUnit.reset_position { cexMoveUnit with models := [cexMoveModel.set_location 22 30 0 0] }

lemma cexMove_heuristic_self : heuristic ((22:ℝ), (30:ℝ)) ((22:ℝ), (30:ℝ)) < 0.1 := by
  rw [heuristic_eval]
  norm_num [get_dist, Real.sqrt_zero]

lemma cexMove_aStar :
    a_star cexMoveModel emptyMap.obstacles ⟨22, 30, 0, 0⟩ =
      some (some [((22:ℝ), (30:ℝ)), ((22:ℝ), (30:ℝ))]) :=
  aStar_immediate cexMoveModel emptyMap.obstacles ⟨22, 30, 0, 0⟩ (Or.inr cexMove_heuristic_self)

lemma cexMove_path_distance : path_distance [((22:ℝ), (30:ℝ)), ((22:ℝ), (30:ℝ))] = 0 := by
  rw [path_distance_pair]
  norm_num [get_dist, Real.sqrt_zero]

lemma cexMove_processModels :
    processModels emptyMap [(cexMoveModel, (⟨22, 30, 0, 0⟩ : Pos4))] =
      some ([cexMoveModel.set_location 22 30 0 0], true) := by
  unfold processModels
  rw [cexMove_aStar]
  simp only
  rw [if_neg (by simp : ¬([((22:ℝ), (30:ℝ)), ((22:ℝ), (30:ℝ))] = ([] : List Pt)))]
  rw [if_neg ?hbudget]
  case hbudget =>
    rw [cexMove_path_distance]
    have hmv : cexMoveModel.movement = 0 := rfl
    rw [hmv]
    norm_num
  unfold processModels
  rfl

lemma cexMove_eval :
    GameUnit.move cexMoveUnit (22, 30, 0) emptyMap = some (true, cexMoveUnitAfter) := by
  have hmodels : cexMoveUnit.models = [cexMoveModel] := rfl
  have hpp : cexMoveUnit.calculate_model_positions ((22:ℝ), (30:ℝ), (0:ℝ)).1
      ((22:ℝ), (30:ℝ), (0:ℝ)).2.1 emptyMap 1 [] = [⟨22, 30, 0, 0⟩] := by
    rw [calc_positions_single cexMoveUnit cexMoveModel emptyMap _ _ hmodels]
    norm_num [Pos4.mk.injEq]
  unfold GameUnit.move
  rw [if_neg (by rw [hmodels]; simp)]
  have hgp : cexMoveUnit.get_position = some (22, 30, 0) := rfl
  rw [hgp, hpp, hmodels]
  simp only [List.zip_cons_cons, List.zip_nil_right]
  rw [cexMove_processModels]
  simp only
  rw [if_pos trivial]
  rfl

/-- C2 counterexample: `Unit.move` never consults the pivot cost or the
movement budget — for this vehicle unit the pivot cost is 2, the movement
budget 0 and the (unique) per-model path distance 0, so the claimed "legal
iff pivot cost + longest path ≤ budget" demands `False`; yet `move`
returns `True` (and relocates the model). -/
theorem move_ignores_budget_cex :
    GameUnit.move cexMoveUnit (22, 30, 0) emptyMap = some (true, cexMoveUnitAfter) ∧
    get_pivot_cost cexMoveUnit = 2 ∧
    (cexMoveUnit.movement : ℝ) = 0 ∧
    path_distance [((22:ℝ), (30:ℝ)), ((22:ℝ), (30:ℝ))] = 0 := by
  refine ⟨cexMove_eval, ?_, by norm_num [GameUnit.movement, cexMoveUnit, cexMoveModel],
    cexMove_path_distance⟩
  unfold get_pivot_cost
  have hcond : ((cexMoveUnit.is_monster || cexMoveUnit.is_vehicle) &&
      (!cexMoveUnit.has_circular_base ||
        decide (cexMoveUnit.base_size > convert_mm_to_inches (32 / 2)))) = true := by
    simp only [Bool.and_eq_true, Bool.or_eq_true, decide_eq_true_eq]
    refine ⟨Or.inr rfl, Or.inr ?_⟩
    rw [convert_16mm]
    show (1 : ℝ) > 6299 / 10000
    norm_num
  rw [if_neg (by simp [cexMoveUnit]), if_pos hcond]

/-- The empty unit (no models). -/
def emptyUnit : GameUnit :=
  { models := [], position := none, coherency_distance := 2, required_neighbors := 0,
    faction := "A", is_fly := false, is_infantry := false, is_beast := false,
    is_belisarius_cawl := false, is_imperium_primarch := false,
    is_aircraft := false, is_monster := false, is_vehicle := false }

/-- C2 amended: `Unit.move` returns `False` only for a unit with no models;
for a nonempty unit every normal return is `True` — path cost, pivot cost
and solver success are never reflected in the return value (a run in which
no model is relocated does not return at all: the final `print` raises on
the unbound `distance`, modelled by `none`). -/
theorem move_result_characterization (u : GameUnit) (dest : ℝ × ℝ × ℝ) (m : Map) :
    (u.models = [] → GameUnit.move u dest m = some (false, u)) ∧
    (u.models ≠ [] → ∀ b u2, GameUnit.move u dest m = some (b, u2) → b = true) := by
  constructor
  · intro h
    unfold GameUnit.move
    rw [if_pos h]
  · intro h b u2 hmove
    unfold GameUnit.move at hmove
    rw [if_neg h] at hmove
    rcases hgp : u.get_position with _ | pos
    · exfalso
      unfold GameUnit.get_position at hgp
      rcases hup : u.position with _ | p
      · rw [hup] at hgp
        rw [if_neg h] at hgp
        cases hgp
      · rw [hup] at hgp
        cases hgp
    · rw [hgp] at hmove
      dsimp only at hmove
      rcases hpm : processModels m
          (u.models.zip (u.calculate_model_positions dest.1 dest.2.1 m 1 [])) with _ | r
      · rw [hpm] at hmove
        cases hmove
      · rw [hpm] at hmove
        dsimp only at hmove
        by_cases hr : r.2 = true
        · rw [if_pos hr] at hmove
          exact ((Prod.mk.injEq _ _ _ _).mp (Option.some.inj hmove)).1.symm
        · rw [if_neg hr] at hmove
          cases hmove

/-- C2 witness: the characterization applied to the empty unit. -/
theorem move_result_characterization_witness :
    emptyUnit.models = [] ∧
    GameUnit.move emptyUnit (0, 0, 0) emptyMap = some (false, emptyUnit) :=
  ⟨rfl, (move_result_characterization emptyUnit (0, 0, 0) emptyMap).1 rfl⟩

end MoveReturnClaim

noncomputable section AtomicityClaim

open Classical

/-- C1 amended (per-claim theorem): when the placement solver fails
(returns `[]`), no model is relocated — for an empty unit `move` returns
`False` with the unit untouched, and for a nonempty unit the per-model
loop never runs, no footprint is written, and the function terminates with
the unbound-`distance` `NameError` (modelled as `none`) instead of
returning. -/
theorem move_solver_failure_behavior (u : GameUnit) (dest : ℝ × ℝ × ℝ) (m : Map)
    (hfail : u.calculate_model_positions dest.1 dest.2.1 m 1 [] = []) :
    (u.models = [] → GameUnit.move u dest m = some (false, u)) ∧
    (u.models ≠ [] → GameUnit.move u dest m = none) := by
  constructor
  · intro h
    unfold GameUnit.move
    rw [if_pos h]
  · intro h
    unfold GameUnit.move
    rw [if_neg h, hfail]
    have hgp : ∃ q, u.get_position = some q := by
      cases hup : u.position with
      | none =>
          exact ⟨centroid3 u.models, by
            unfold GameUnit.get_position
            rw [hup, if_neg h]⟩
      | some p =>
          exact ⟨p, by
            unfold GameUnit.get_position
            rw [hup]⟩
    obtain ⟨q, hq⟩ := hgp
    rw [hq]
    dsimp only
    rw [List.zip_nil_right]
    rw [show processModels m [] = some ([], false) from rfl]
    dsimp only
    rw [if_neg (by simp)]

/-- C1 witness: the solver-failure theorem applied to the empty unit (whose
solver run returns `[]`). -/
theorem move_solver_failure_witness :
    emptyUnit.calculate_model_positions ((0:ℝ), (0:ℝ), (0:ℝ)).1 ((0:ℝ), (0:ℝ), (0:ℝ)).2.1
        emptyMap 1 [] = [] ∧
    GameUnit.move emptyUnit (0, 0, 0) emptyMap = some (false, emptyUnit) :=
  ⟨rfl, (move_solver_failure_behavior emptyUnit (0, 0, 0) emptyMap rfl).1 rfl⟩

/-- First model of the C1 unit: circular base radius `1/20` at `(22, 30)`,
facing 1, movement 0. -/
def cexAtomModelA : Model :=
  { model_base := { Base.makeCircular (1/20) with x := 22, y := 30, facing := 1 },
    movement := 0 }

/-- Second model of the C1 unit: same base at `(22, 30.2)`, facing 0. -/
def cexAtomModelB : Model :=
  { model_base := { Base.makeCircular (1/20) with x := 22, y := 151/5 }, movement := 0 }

/-- The two-model C1 unit. -/
def cexAtomUnit : GameUnit :=
  { models := [cexAtomModelA, cexAtomModelB],
    position := some (22, 30, 0), coherency_distance := 2, required_neighbors := 1,
    faction := "A", is_fly := false, is_infantry := false, is_beast := false,
    is_belisarius_cawl := false, is_imperium_primarch := false,
    is_aircraft := false, is_monster := false, is_vehicle := false }

/-- The solver's first placement (the anchor) in the C1 run. -/
def cexP1 : Pos4 := ⟨22, 30, 0, 0⟩

/-- The solver's second placement in the C1 run: first radial candidate in
the first compass direction, `0.15` above the anchor. -/
def cexP2 : Pos4 := ⟨22, 603/20, 0, 0⟩

lemma cexAtom_model_height : cexAtomUnit.model_height = 1/10 := by
  simp [GameUnit.model_height, cexAtomUnit, cexAtomModelA, cexAtomModelB,
    Base.makeCircular, Base.make]
  norm_num

lemma cexAtom_potential_radius (x y z facing ang : ℝ) :
    (cexAtomUnit.create_potential_base x y z facing).getRadius ang = 1/20 := by
  rw [getRadius_circular _ rfl]
  rw [show (cexAtomUnit.create_potential_base x y z facing).radius.1 = 1/20 from rfl]
  exact round4_one_twentieth

lemma cexAtom_not_collides :
    ¬ cexAtomUnit.collides_with_unit_models cexP2.x cexP2.y cexP2.z cexP2.facing [cexP1] := by
  intro hcol
  unfold GameUnit.collides_with_unit_models collidesScan at hcol
  rw [if_neg ?h1, if_neg ?h2] at hcol
  · exact hcol
  case h1 =>
    rw [show cexP2.z - cexP1.z = 0 by norm_num [cexP1, cexP2], cexAtom_model_height]
    norm_num
  case h2 =>
    rw [cexAtom_potential_radius, cexAtom_potential_radius]
    rw [show cexP2.x - cexP1.x = 0 by norm_num [cexP1, cexP2],
        show cexP2.y - cexP1.y = 3/20 by norm_num [cexP1, cexP2]]
    rw [get_dist_zero_left (by norm_num)]
    norm_num

end AtomicityClaim

noncomputable section AtomicityClaimTrace

open Classical

lemma cexAtom_shape2 :
    (cexAtomUnit.create_potential_base cexP2.x cexP2.y cexP2.z cexP2.facing).getShape =
      create_ellipse ((22:ℝ), (603/20:ℝ)) (1/20, 1/20) 0 := rfl

lemma cexAtom_shape1 :
    (cexAtomUnit.create_potential_base cexP1.x cexP1.y cexP1.z cexP1.facing).getShape =
      create_ellipse ((22:ℝ), (30:ℝ)) (1/20, 1/20) 0 := rfl

lemma cexAtom_close : nbrClose cexAtomUnit cexP2.x cexP2.y cexP2.z cexP2.facing cexP1 := by
  unfold nbrClose
  rw [cexAtom_shape2, cexAtom_shape1]
  have hm1 : (((22:ℝ), (603/20:ℝ) + (1/20) * (-1)) : Pt) ∈
      create_ellipse ((22:ℝ), (603/20:ℝ)) (1/20, 1/20) 0 :=
    mem_create_ellipse_vert ((22:ℝ), (603/20:ℝ)) (1/20, 1/20) (-1) (Or.inr rfl)
  have hm2 : (((22:ℝ), (30:ℝ) + (1/20) * 1) : Pt) ∈
      create_ellipse ((22:ℝ), (30:ℝ)) (1/20, 1/20) 0 :=
    mem_create_ellipse_vert ((22:ℝ), (30:ℝ)) (1/20, 1/20) 1 (Or.inl rfl)
  have hd := setDist_le hm1 hm2
  have hpd : pdist (((22:ℝ), (603/20:ℝ) + (1/20) * (-1)) : Pt)
      (((22:ℝ), (30:ℝ) + (1/20) * 1) : Pt) = 1/20 := by
    unfold pdist
    dsimp only
    rw [show ((22:ℝ) - 22) = 0 by norm_num,
        show ((603:ℝ)/20 + (1/20) * (-1) - ((30:ℝ) + (1/20) * 1)) = 1/20 by norm_num]
    exact get_dist_zero_left (by norm_num)
  rw [hpd] at hd
  rw [show cexAtomUnit.coherency_distance = 2 from rfl]
  linarith

lemma cexAtom_coherent :
    cexAtomUnit.is_coherent_within_unit cexP2.x cexP2.y cexP2.z cexP2.facing [cexP1] := by
  unfold GameUnit.is_coherent_within_unit
  simp only [List.length_singleton]
  norm_num
  rw [pcount_singleton_of _ _ cexAtom_close]

lemma cexAtom_boundary :
    emptyMap.is_within_boundary cexAtomUnit.firstModel ((cexP2.x, cexP2.y) : Pt) := by
  have hld : cexAtomUnit.firstModel.model_base.longestDistance = 1/20 := by
    rw [show cexAtomUnit.firstModel.model_base.longestDistance =
      max (1/20 : ℝ) (1/20 : ℝ) from rfl]
    norm_num
  apply within_boundary_of_ball
  · show (0:ℝ) ≤ 1/20
    norm_num
  · show (0:ℝ) ≤ 1/20
    norm_num
  · rw [hld]
    show (1:ℝ)/20 ≤ 22
    norm_num
  · rw [hld]
    show (22:ℝ) + 1/20 ≤ emptyMap.width
    rw [show emptyMap.width = 44 from rfl]
    norm_num
  · rw [hld]
    show (1:ℝ)/20 ≤ 603/20
    norm_num
  · rw [hld]
    show (603:ℝ)/20 + 1/20 ≤ emptyMap.height
    rw [show emptyMap.height = 60 from rfl]
    norm_num

lemma cexAtom_valid :
    cexAtomUnit.is_valid_position cexP2.x cexP2.y cexP2.z cexP2.facing emptyMap [cexP1] :=
  ⟨cexAtom_boundary, no_obstacle_collision_of_empty _ _ _ _ rfl,
   no_unit_collision_of_empty _ _ _ _ rfl, cexAtom_not_collides, cexAtom_coherent⟩

lemma cexAtom_radiusB (ang : ℝ) : cexAtomModelB.model_base.getRadius ang = 1/20 := by
  rw [getRadius_circular _ rfl]
  rw [show cexAtomModelB.model_base.radius.1 = 1/20 from rfl]
  exact round4_one_twentieth

lemma cexAtom_find :
    ∃ tail, cexAtomUnit.find_strategic_position cexAtomModelB [cexP1] emptyMap =
      cexP2 :: tail := by
  unfold GameUnit.find_strategic_position
  rw [show ([cexP1].getLast?) = some cexP1 from rfl]
  dsimp only
  rw [List.flatMap_cons]
  dsimp only
  rw [cexAtom_radiusB]
  rw [show cexAtomUnit.coherency_distance = 2 from rfl]
  have harange : ∃ t, arange ((1:ℝ)/20 + 0.1) ((1:ℝ)/20 + 2) 0.1 =
      ((1:ℝ)/20 + 0.1 + 0.1 * ((0:ℕ):ℝ)) :: t := by
    unfold arange
    rw [show (((1:ℝ)/20 + 2) - ((1:ℝ)/20 + 0.1)) / 0.1 = (19:ℝ) by norm_num]
    rw [show ⌈(19:ℝ)⌉₊ = 19 by simp]
    rw [show (19:ℕ) = 18 + 1 from rfl, List.range_succ_eq_map, List.map_cons]
    exact ⟨_, rfl⟩
  obtain ⟨t, ht⟩ := harange
  rw [ht, List.map_cons]
  rw [show (Pos4.mk (cexP1.x + ((1:ℝ)/20 + 0.1 + 0.1 * ((0:ℕ):ℝ)) * (0:ℝ))
      (cexP1.y + ((1:ℝ)/20 + 0.1 + 0.1 * ((0:ℕ):ℝ)) * (1:ℝ)) cexP1.z cexP1.facing) = cexP2 by
    norm_num [cexP1, cexP2, Pos4.mk.injEq]]
  simp only [pfilter]
  rw [if_pos cexAtom_valid]
  rw [List.cons_append]
  exact ⟨_, rfl⟩

lemma cexAtom_tryPlaceB (sx sy : ℝ) :
    tryPlace cexAtomUnit emptyMap sx sy cexAtomModelB [cexP1] 100 = some cexP2 := by
  rw [show (100:ℕ) = 99 + 1 from rfl]
  unfold tryPlace
  rw [if_neg (by simp : ¬([cexP1] = []))]
  obtain ⟨tail, hfind⟩ := cexAtom_find
  rw [hfind]
  simp only [pfind]
  rw [if_pos ⟨cexAtom_not_collides, cexAtom_coherent⟩]

lemma cexAtom_solver :
    cexAtomUnit.calculate_model_positions ((22:ℝ), (30:ℝ), (0:ℝ)).1
      ((22:ℝ), (30:ℝ), (0:ℝ)).2.1 emptyMap 1 [] = [cexP1, cexP2] := by
  unfold GameUnit.calculate_model_positions
  rw [show cexAtomUnit.models = [cexAtomModelA, cexAtomModelB] from rfl]
  simp only [placeModels]
  rw [show (100 : ℕ) = 99 + 1 from rfl, tryPlace_empty]
  simp only [List.nil_append]
  rw [show (Pos4.mk (((22:ℝ), (30:ℝ), (0:ℝ)).1 / 1) (((22:ℝ), (30:ℝ), (0:ℝ)).2.1 / 1) 0 0)
      = cexP1 by
    norm_num [cexP1, Pos4.mk.injEq]]
  rw [cexAtom_tryPlaceB]
  simp only [placeModels]
  rfl

end AtomicityClaimTrace

noncomputable section AtomicityClaimFinal

open Classical

lemma processModels_nil (mp : Map) : processModels mp [] = some ([], false) := rfl

lemma processModels_cons (mp : Map) (mo : Model) (ps : Pos4) (rest : List (Model × Pos4)) :
    processModels mp ((mo, ps) :: rest) =
      match a_star mo mp.obstacles ps with
      | none => none
      | some none => (processModels mp rest).map (fun r => (mo :: r.1, r.2))
      | some (some path) =>
          if path = [] then (processModels mp rest).map (fun r => (mo :: r.1, r.2))
          else if path_distance path > (mo.movement : ℝ) then
            (processModels mp rest).map (fun r => (mo :: r.1, r.2))
          else
            (processModels mp rest).map (fun r =>
              (mo.set_location ps.x ps.y ps.z ps.facing :: r.1, true)) := rfl

lemma cexAtom_aStarA :
    a_star cexAtomModelA emptyMap.obstacles cexP1 =
      some (some [((22:ℝ), (30:ℝ)), ((22:ℝ), (30:ℝ))]) :=
  aStar_immediate cexAtomModelA emptyMap.obstacles cexP1 (Or.inr cexMove_heuristic_self)

lemma cexAtom_heuristicB :
    heuristic ((22:ℝ), (151/5:ℝ)) ((22:ℝ), (603/20:ℝ)) < 0.1 := by
  rw [heuristic_eval]
  rw [show ((22:ℝ) - 22) = 0 by norm_num,
      show ((151:ℝ)/5 - 603/20) = 1/20 by norm_num]
  rw [get_dist_zero_left (by norm_num)]
  norm_num

lemma cexAtom_aStarB :
    a_star cexAtomModelB emptyMap.obstacles cexP2 =
      some (some [((22:ℝ), (151/5:ℝ)), ((22:ℝ), (603/20:ℝ))]) :=
  aStar_immediate cexAtomModelB emptyMap.obstacles cexP2 (Or.inr cexAtom_heuristicB)

lemma cexAtom_pathB :
    path_distance [((22:ℝ), (151/5:ℝ)), ((22:ℝ), (603/20:ℝ))] = 1/20 := by
  rw [path_distance_pair]
  rw [show ((22:ℝ) - 22) = 0 by norm_num,
      show ((603:ℝ)/20 - 151/5) = -(1/20) by norm_num]
  exact get_dist_zero_left_neg (by norm_num)

lemma cexAtom_processB :
    processModels emptyMap [(cexAtomModelB, cexP2)] = some ([cexAtomModelB], false) := by
  rw [processModels_cons, cexAtom_aStarB]
  dsimp only
  rw [if_neg (by simp : ¬([((22:ℝ), (151/5:ℝ)), ((22:ℝ), (603/20:ℝ))] = ([] : List Pt)))]
  rw [if_pos ?hb]
  case hb =>
    rw [cexAtom_pathB, show cexAtomModelB.movement = 0 from rfl]
    push_cast
    norm_num
  rw [processModels_nil]
  rfl

lemma cexAtom_processModels :
    processModels emptyMap [(cexAtomModelA, cexP1), (cexAtomModelB, cexP2)] =
      some ([cexAtomModelA.set_location 22 30 0 0, cexAtomModelB], true) := by
  rw [processModels_cons, cexAtom_aStarA]
  dsimp only
  rw [if_neg (by simp : ¬([((22:ℝ), (30:ℝ)), ((22:ℝ), (30:ℝ))] = ([] : List Pt)))]
  rw [if_neg ?hb]
  case hb =>
    rw [cexMove_path_distance, show cexAtomModelA.movement = 0 from rfl]
    push_cast
    norm_num
  rw [cexAtom_processB]
  rfl

/-- The state `Unit.move` leaves behind in the C1 run: the first model
relocated and re-faced, the second untouched. -/
def cexAtomUnitAfter : GameUnit :=
  GameUnit.reset_position { cexAtomUnit with
    models := [cexAtomModelA.set_location 22 30 0 0, cexAtomModelB] }

lemma cexAtom_move_eval :
    GameUnit.move cexAtomUnit (22, 30, 0) emptyMap = some (true, cexAtomUnitAfter) := by
  unfold GameUnit.move
  rw [if_neg (by rw [show cexAtomUnit.models = [cexAtomModelA, cexAtomModelB] from rfl]; simp)]
  rw [show cexAtomUnit.get_position = some ((22:ℝ), (30:ℝ), (0:ℝ)) from rfl]
  rw [cexAtom_solver]
  rw [show cexAtomUnit.models = [cexAtomModelA, cexAtomModelB] from rfl]
  simp only [List.zip_cons_cons, List.zip_nil_right]
  rw [cexAtom_processModels]
  simp only
  rw [if_pos trivial]
  rfl

/-- C1 counterexample: the move "fails" in the claim's sense — the second
model's path (length `1/20`) exceeds its movement budget (0), so it is
skipped — yet `Unit.move` still relocates the first model (its facing
changes from 1 to 0) and returns `True`.  Model state is mutated per-model,
not atomically. -/
theorem move_partial_mutation_cex :
    cexAtomUnit.calculate_model_positions ((22:ℝ), (30:ℝ), (0:ℝ)).1
        ((22:ℝ), (30:ℝ), (0:ℝ)).2.1 emptyMap 1 [] = [cexP1, cexP2] ∧
    a_star cexAtomModelB emptyMap.obstacles cexP2 =
      some (some [((22:ℝ), (151/5:ℝ)), ((22:ℝ), (603/20:ℝ))]) ∧
    path_distance [((22:ℝ), (151/5:ℝ)), ((22:ℝ), (603/20:ℝ))] > (cexAtomModelB.movement : ℝ) ∧
    GameUnit.move cexAtomUnit (22, 30, 0) emptyMap = some (true, cexAtomUnitAfter) ∧
    (cexAtomModelA.set_location 22 30 0 0).model_base.facing ≠ cexAtomModelA.model_base.facing := by
  refine ⟨cexAtom_solver, cexAtom_aStarB, ?_, cexAtom_move_eval, ?_⟩
  · rw [cexAtom_pathB, show cexAtomModelB.movement = 0 from rfl]
    push_cast
    norm_num
  · rw [show (cexAtomModelA.set_location 22 30 0 0).model_base.facing = 0 from rfl,
        show cexAtomModelA.model_base.facing = 1 from rfl]
    norm_num

end AtomicityClaimFinal
